import Mathlib

/-!
Shallow embedding of the debate orchestration and belief-revision engine of
the conclave repository, together with theorems checking its natural-language
specification against the code.

Embedded sources:
* `src/server/lib/debate-engine.ts` — the belief revision engine
  (`normalizeEntries`, `dampAndNormalize`, `applyWeightedUpdate`,
  `reviseFromAgent`, `evaluateVerification`), plan derivation, the
  code-scenario detector, the verification decision, the snapshot pipeline of
  `runDebate`, timeline and evidence assembly.
* `src/server/lib/adapters/mock-adapter.ts` — the local mock verification
  adapter (`selectOutput`).
* `mcp/conclave-tools/index.ts` — the `verify_plan` MCP tool handler.
* the HTTP server's `handleRun` persistence step (prepend, truncate to 25).

Modelling conventions:
* JavaScript numbers are modelled as exact rationals (`ℚ`).
* Every snapshot timestamp in the engine is produced by
  `toTimestamp(baseTime, offsetMinutes)`, which is strictly monotone and
  injective in the offset, so timestamps are modelled as the `Nat` offset in
  minutes from run start.
* `Array.prototype.sort` with comparator `(a, b) => b.probability - a.probability`
  is a stable descending sort (guaranteed by the ECMAScript standard); it is
  embedded as `sortByDesc`, a stable insertion sort, which computes the same
  list as every other stable descending sort.
* `string.includes` and `string.toLowerCase` are embedded as executable
  character-list functions so that concrete scenarios evaluate by `decide`.
-/

namespace Conclave

/-- One probability ledger entry, `ProbabilityEntry` of
`src/lib/probability-parliament-types.ts`. -/
structure ProbabilityEntry where
  planId : String
  probability : ℚ
  updatedBy : String
  rationale : String
  timestamp : Nat
deriving DecidableEq, Repr

/-- One candidate plan, `DebatePlan` of `src/lib/probability-parliament-types.ts`. -/
structure DebatePlan where
  id : String
  title : String
  summary : String
  steps : List String
  risks : List String
deriving DecidableEq, Repr

/-- One recorded snapshot, `ProbabilitySnapshot` of the types module. -/
structure ProbabilitySnapshot where
  timestamp : Nat
  note : String
  entries : List ProbabilityEntry
deriving DecidableEq, Repr

/-- `const DAMPING_FACTOR = 0.08` of `debate-engine.ts`. -/
def DAMPING_FACTOR : ℚ := 8 / 100

/-- `const clampUnit = (value) => Math.min(1, Math.max(0, value))`. -/
def clampUnit (value : ℚ) : ℚ := min 1 (max 0 value)

/-- `const clampWeight = (value) => Math.min(1, Math.max(0, value))`. -/
def clampWeight (value : ℚ) : ℚ := min 1 (max 0 value)

/-- The running total `entries.reduce((sum, entry) => sum + entry.probability, 0)`
used by `normalizeEntries`. -/
def totalProbability (entries : List ProbabilityEntry) : ℚ :=
  entries.foldl (fun sum entry => sum + entry.probability) 0

/-- `normalizeEntries` of `debate-engine.ts` (lines 109-119): if the total is 0
every entry becomes `1 / entries.length`, otherwise each is divided by the
total. -/
def normalizeEntries (entries : List ProbabilityEntry) : List ProbabilityEntry :=
  let total := totalProbability entries
  if total = 0 then
    let uniform : ℚ := 1 / entries.length
    entries.map fun entry => { entry with probability := uniform }
  else
    entries.map fun entry => { entry with probability := entry.probability / total }

/-- `dampAndNormalize` of `debate-engine.ts` (lines 121-129): normalize, then
blend each probability with the uniform distribution using `DAMPING_FACTOR`. -/
def dampAndNormalize (entries : List ProbabilityEntry) : List ProbabilityEntry :=
  let normalized := normalizeEntries entries
  let uniform : ℚ := 1 / normalized.length
  normalized.map fun entry =>
    { entry with
        probability := (1 - DAMPING_FACTOR) * entry.probability + DAMPING_FACTOR * uniform }

/-- `recordSnapshot` of `debate-engine.ts` (lines 134-142). -/
def recordSnapshot (timestamp : Nat) (note : String) (entries : List ProbabilityEntry) :
    ProbabilitySnapshot :=
  { timestamp := timestamp, note := note, entries := entries }

/-- The inline update-record argument of `applyWeightedUpdate`. -/
structure ProbabilityUpdate where
  planId : String
  probability : ℚ
  updatedBy : String
  rationale : String
deriving DecidableEq, Repr

/-- `applyWeightedUpdate` of `debate-engine.ts` (lines 144-163): the targeted
plan gets `clampUnit(old * (1 - weight) + asserted * weight)`; every other
entry passes through unchanged. -/
def applyWeightedUpdate (previous : List ProbabilityEntry) (update : ProbabilityUpdate)
    (timestamp : Nat) (weight : ℚ) : List ProbabilityEntry :=
  previous.map fun entry =>
    if entry.planId ≠ update.planId then entry
    else
      let weighted := entry.probability * (1 - weight) + update.probability * weight
      { entry with
          probability := clampUnit weighted
          updatedBy := update.updatedBy
          rationale := update.rationale
          timestamp := timestamp }

/-- `initialProbabilitiesForPlans` of `debate-engine.ts` (lines 277-289): one
entry per plan at probability 0.25, timestamped run-start + 1 minute. -/
def initialProbabilitiesForPlans (plans : List DebatePlan) : List ProbabilityEntry :=
  plans.map fun plan =>
    { planId := plan.id
      probability := 0.25
      updatedBy := "planner"
      rationale := "Initial prior assigned by Planner."
      timestamp := 1 }

/-- Stable insertion into a descending-sorted list: the new element goes after
every earlier element whose key is greater than or equal to its own. -/
def insertDesc {α : Type} (f : α → ℚ) (x : α) : List α → List α
  | [] => [x]
  | y :: ys => if f y < f x then x :: y :: ys else y :: insertDesc f x ys

/-- Embedding of `[...list].sort((a, b) => keyOf(b) - keyOf(a))`: the JS sort
with this comparator is exactly the stable descending sort by the key. -/
def sortByDesc {α : Type} (f : α → ℚ) (l : List α) : List α :=
  l.foldl (fun acc x => insertDesc f x acc) []

/-- Keep the incumbent unless the challenger's key is strictly larger; folding
this over a list yields its first element of maximal key. -/
def maxStep {α : Type} (f : α → ℚ) (acc : Option α) (x : α) : Option α :=
  match acc with
  | none => some x
  | some b => if f b < f x then some x else some b

/-- The first element of the list attaining the maximal key (ties resolved in
favour of the earlier element): the specification's reading of "highest
probability plan, ties resolved by original plan-array order". -/
def firstMaxBy {α : Type} (f : α → ℚ) (l : List α) : Option α :=
  l.foldl (maxStep f) none

/-- The `pickFinalPlanId` closure of `runDebate` (lines 770-773) and the
`finalPlanId` selection (line 819): sort a copy descending by probability and
take the head's plan id, defaulting to "plan-a". -/
def pickFinalPlanId (verified : List ProbabilityEntry) : String :=
  match (sortByDesc (fun e => e.probability) verified).head? with
  | some entry => entry.planId
  | none => "plan-a"

/-- One collected agent proposal (the element type of the `proposals` array in
`runDebate`). -/
structure Proposal where
  agent : String
  proposal : String
  summary : String
  risk : String
  riskSeverity : ℚ
  rationale : List String
  confidence : ℚ
deriving DecidableEq, Repr

/-- `DebateWeights` of the types module: one influence weight per role. -/
structure DebateWeights where
  planner : ℚ
  skeptic : ℚ
  security : ℚ
  cost : ℚ
  synthesizer : ℚ
deriving DecidableEq, Repr

/-- `defaultWeights` of `debate-engine.ts` (lines 169-175). -/
def defaultWeights : DebateWeights :=
  { planner := 35 / 100
    skeptic := 45 / 100
    security := 5 / 10
    cost := 4 / 10
    synthesizer := 6 / 10 }

/-- Partial overrides accepted by `resolveWeights` (every field optional). -/
structure WeightOverrides where
  planner : Option ℚ := none
  skeptic : Option ℚ := none
  security : Option ℚ := none
  cost : Option ℚ := none
  synthesizer : Option ℚ := none
deriving DecidableEq, Repr

/-- `resolveWeights` of `debate-engine.ts` (lines 177-183). -/
def resolveWeights (overrides : WeightOverrides) : DebateWeights :=
  { planner := clampWeight (overrides.planner.getD defaultWeights.planner)
    skeptic := clampWeight (overrides.skeptic.getD defaultWeights.skeptic)
    security := clampWeight (overrides.security.getD defaultWeights.security)
    cost := clampWeight (overrides.cost.getD defaultWeights.cost)
    synthesizer := clampWeight (overrides.synthesizer.getD defaultWeights.synthesizer) }

/-- Lookup in the per-role weight record, `weights[role]` for the four
proposal roles (synthesizer weight is read directly where needed). -/
def roleWeight (weights : DebateWeights) (role : String) : ℚ :=
  if role = "planner" then weights.planner
  else if role = "skeptic" then weights.skeptic
  else if role = "security" then weights.security
  else if role = "cost" then weights.cost
  else weights.synthesizer

/-- The `proposalPlanMap` of `runDebate` (lines 598-603 and 731-736): the fixed
role-to-plan-slot assignment, as an optional lookup like `Map.get`. -/
def proposalPlanMap (role : String) : Option String :=
  if role = "planner" then some "plan-a"
  else if role = "skeptic" then some "plan-b"
  else if role = "security" then some "plan-c"
  else if role = "cost" then some "plan-d"
  else none

/-- The fixed role iteration order of the belief-revision loop (line 730). -/
def proposalOrder : List String := ["planner", "skeptic", "security", "cost"]

/-- One slot of `plansFromProposals` (lines 261-275): the body of the
`order.map((role, index) => ...)` callback; a role without a proposal yields
the placeholder plan.  The slot id `String.fromCharCode(97 + index)` gives the
letters a, b, c, d. -/
def planSlot (proposals : List Proposal) (role letter : String) (index : Nat) : DebatePlan :=
  match proposals.find? (fun item => item.agent = role) with
  | some proposal =>
    { id := "plan-" ++ letter
      title := role ++ " proposal"
      summary := proposal.proposal
      steps :=
        if proposal.rationale.length ≠ 0 then proposal.rationale
        else ["Gather details", "Draft approach", "Validate outcome"]
      risks := ["Requires validation against real-world constraints."] }
  | none =>
    { id := "plan-" ++ letter
      title := "Plan " ++ toString (index + 1)
      summary := "No proposal available."
      steps := ["Gather details", "Draft approach", "Validate outcome"]
      risks := ["Requires validation against real-world constraints."] }

/-- `plansFromProposals` of `debate-engine.ts` (lines 261-275): the map over
the fixed four-role order, unrolled slot by slot. -/
def plansFromProposals (proposals : List Proposal) : List DebatePlan :=
  [planSlot proposals "planner" "a" 0,
   planSlot proposals "skeptic" "b" 1,
   planSlot proposals "security" "c" 2,
   planSlot proposals "cost" "d" 3]

/-- The lightweight update records passed to `reviseFromAgent`. -/
structure AgentUpdate where
  planId : String
  probability : ℚ
  rationale : String
deriving DecidableEq, Repr

/-- `reviseFromAgent` of `debate-engine.ts` (lines 318-337): apply each update
with the given weight, restamp every entry, then `dampAndNormalize`. -/
def reviseFromAgent (previous : List ProbabilityEntry) (agent : String)
    (updates : List AgentUpdate) (offset : Nat) (weight : ℚ) : List ProbabilityEntry :=
  let timestamp := offset
  let result := updates.foldl
    (fun result update =>
      applyWeightedUpdate result
        { planId := update.planId
          probability := update.probability
          updatedBy := agent
          rationale := update.rationale }
        timestamp weight)
    previous
  dampAndNormalize (result.map fun entry => { entry with timestamp := timestamp })

/-- `VerificationResult` of `src/server/lib/adapters/types.ts`.  The optional
`startedAt` and `finishedAt` ISO strings are modelled as millisecond counts. -/
structure VerificationResult where
  passed : Bool
  output : String
  durationMs : Int
  summary : String
  reliability : Option ℚ := none
  warning : Option String := none
  adapterName : Option String := none
  startedAt : Option Nat := none
  finishedAt : Option Nat := none
deriving DecidableEq, Repr

/-- `evaluateVerification` of `debate-engine.ts` (lines 291-316): weighted
update of the targeted plan toward 0.82 (pass) or 0.18 (fail) with effective
weight `clampWeight(weight * reliability)`, then `dampAndNormalize`. -/
def evaluateVerification (previous : List ProbabilityEntry)
    (verification : VerificationResult) (planId : String) (weight : ℚ) :
    List ProbabilityEntry :=
  let timestamp := 16
  let reliability := verification.reliability.getD
    (if verification.passed then 9 / 10 else 75 / 100)
  let effectiveWeight := clampWeight (weight * reliability)
  let targetProbability : ℚ := if verification.passed then 82 / 100 else 18 / 100
  let updated := applyWeightedUpdate previous
    { planId := planId
      probability := targetProbability
      updatedBy := "synthesizer"
      rationale :=
        if verification.passed then "Verification passed; confidence boosted with damping."
        else "Verification failed; confidence reduced with damping." }
    timestamp effectiveWeight
  dampAndNormalize (updated.map fun entry => { entry with timestamp := timestamp })

/-- Embedding of `String.prototype.toLowerCase` via per-character lowering. -/
def toLowerStr (s : String) : String := String.mk (s.data.map Char.toLower)

/-- Substring occurrence on character lists, the semantics of
`String.prototype.includes`. -/
def containsSub (needle : List Char) : List Char → Bool
  | [] => needle.isEmpty
  | c :: rest => needle.isPrefixOf (c :: rest) || containsSub needle rest

/-- `haystack.includes(needle)` on strings. -/
def strIncludes (haystack needle : String) : Bool :=
  containsSub needle.data haystack.data

/-- The fixed keyword allow-list of the `isCodeScenario` detector
(`runDebate`, lines 497-518). -/
def codeKeywords : List String :=
  ["code", "bug", "error", "stack", "test", "build", "deploy", "api", "repo",
   "typescript", "javascript", "python", "rust", "java", "compile", "runtime",
   "exception"]

/-- `isCodeScenario` of `runDebate`: lowercase the scenario and look for any
keyword as a substring. -/
def isCodeScenario (text : String) : Bool :=
  let lowered := toLowerStr text
  codeKeywords.any fun word => strIncludes lowered word

/-- The warning text pushed when a code scenario auto-enables verification
(`runDebate`, lines 547-549). -/
def autoEnableWarningText : String :=
  "Verification was auto-enabled for code-related scenarios."

/-- The verification decision of `runDebate`: line 520 computes
`runVerification = codeScenario ? (runVerificationRequested || codeScenario) : false`,
and lines 547-549 push the auto-enable warning exactly when the scenario is
code-related and the caller did not request verification.  Returns the
decision together with the warnings this stage appends. -/
def verificationDecisionStage (scenarioText : String) (runVerificationRequested : Bool) :
    Bool × List String :=
  let codeScenario := isCodeScenario scenarioText
  let runVerification := if codeScenario then runVerificationRequested || codeScenario else false
  (runVerification,
   if codeScenario && !runVerificationRequested then [autoEnableWarningText] else [])

/-- The body of the `proposalOrder.forEach` belief-revision loop of `runDebate`
(lines 740-766), written as structural recursion over the indexed role list so
that each iteration either skips a role without a proposal or applies
`reviseFromAgent` and records a snapshot at run-start + (2 + 2 * index)
minutes. -/
def roleRevisionLoopAux (proposals : List Proposal) (weights : DebateWeights) :
    List (Nat × String) → List ProbabilityEntry →
    List ProbabilityEntry × List ProbabilitySnapshot
  | [], current => (current, [])
  | (index, role) :: rest, current =>
    match proposals.find? (fun item => item.agent = role) with
    | none => roleRevisionLoopAux proposals weights rest current
    | some proposal =>
      let planId := (proposalPlanMap role).getD "plan-a"
      let agentWeight := roleWeight weights role
      let next := reviseFromAgent current role
        [{ planId := planId
           probability := proposal.confidence
           rationale := proposal.rationale.head?.getD "Agent proposal applied." }]
        (2 + index * 2) agentWeight
      let tail := roleRevisionLoopAux proposals weights rest next
      (tail.1, recordSnapshot (2 + index * 2) (role ++ " proposal applied.") next :: tail.2)

/-- The belief-revision loop over the canonical role order, started from the
initial distribution; returns the final entry list and the recorded
snapshots. -/
def roleRevisionLoop (proposals : List Proposal) (weights : DebateWeights)
    (initial : List ProbabilityEntry) : List ProbabilityEntry × List ProbabilitySnapshot :=
  roleRevisionLoopAux proposals weights (proposalOrder.enum) initial

/-- The verification stage of `runDebate` (lines 775-790): target the current
highest-probability plan, fold in the verification result, and record the
snapshot at run-start + 16 minutes. -/
def verificationStage (current : List ProbabilityEntry)
    (verification : VerificationResult) (synthesizerWeight : ℚ) :
    List ProbabilityEntry × ProbabilitySnapshot :=
  let targetPlanId := pickFinalPlanId current
  let verified := evaluateVerification current verification targetPlanId synthesizerWeight
  (verified, recordSnapshot 16 "Verification results applied." verified)

/-- The skipped-verification synthesizer nudge of `runDebate` (lines 791-815):
raise the leading plan toward `min(0.7, current + 0.05)` with the synthesizer
weight and record the snapshot at run-start + 16 minutes. -/
def skippedVerificationStage (current : List ProbabilityEntry) (synthesizerWeight : ℚ) :
    List ProbabilityEntry × ProbabilitySnapshot :=
  let targetPlanId := pickFinalPlanId current
  let targetProbability :=
    ((current.find? (fun entry => entry.planId = targetPlanId)).map
      (fun entry => entry.probability)).getD (5 / 10)
  let skipped := reviseFromAgent current "synthesizer"
    [{ planId := targetPlanId
       probability := min (7 / 10) (targetProbability + 5 / 100)
       rationale := "Synthesizer tempered confidence without verification." }]
    16 synthesizerWeight
  (skipped, recordSnapshot 16 "Verification skipped; synthesizer adjusted confidence." skipped)

/-- The probability-snapshot pipeline of `runDebate` (lines 725-815): initial
priors at run-start + 1 minute, the role revision loop, then either the
verification stage or (when at least one proposal exists) the skipped
synthesizer nudge.  Returns the snapshot sequence and the final entry list. -/
def debateProbabilities (plans : List DebatePlan) (proposals : List Proposal)
    (weights : DebateWeights) (runVerification : Bool)
    (verification : VerificationResult) :
    List ProbabilitySnapshot × List ProbabilityEntry :=
  let initial := dampAndNormalize (initialProbabilitiesForPlans plans)
  let afterInitial : List ProbabilitySnapshot :=
    [recordSnapshot 1 "Initial priors." initial]
  let loop :=
    if proposals.length ≠ 0 then roleRevisionLoop proposals weights initial
    else (initial, [])
  let current := loop.1
  let withRoles := afterInitial ++ loop.2
  if runVerification then
    let staged := verificationStage current verification weights.synthesizer
    (withRoles ++ [staged.2], staged.1)
  else if proposals.length ≠ 0 then
    let staged := skippedVerificationStage current weights.synthesizer
    (withRoles ++ [staged.2], staged.1)
  else
    (withRoles, current)

/-- The verification-target ranking of `runDebate` (lines 596-611): map each
proposal to its plan slot and confidence, sort descending by confidence with
the stable JS sort, and take the head's plan id (falling back to the first
plan, then to "plan-a"). -/
def verificationCallPlanId (proposals : List Proposal) (plans : List DebatePlan) : String :=
  let ranked := sortByDesc (fun r : String × ℚ => r.2)
    (proposals.map fun proposal =>
      ((proposalPlanMap proposal.agent).getD "plan-a", proposal.confidence))
  match ranked.head? with
  | some r => r.1
  | none => ((plans.head?).map (fun plan => plan.id)).getD "plan-a"

/-- One fixture row of the mock adapter's `outputs` table
(`src/server/lib/adapters/mock-adapter.ts`). -/
structure MockOutput where
  planId : String
  passed : Bool
  summary : String
  output : String
deriving DecidableEq, Repr

/-- The `outputs` fixture table of the mock adapter. -/
def mockOutputs : List MockOutput :=
  [{ planId := "plan-a"
     passed := false
     summary := "Two tests still failing after change."
     output := String.intercalate "\n"
       [" RUNS  test/userService.test.ts",
        " FAIL  test/userService.test.ts",
        "  ● UserService › returns default role",
        "    Expected: \"viewer\"",
        "    Received: undefined",
        "  ● UserService › maps roles",
        "    TypeError: cannot read properties of undefined (reading 'role')",
        "",
        "Test Suites: 1 failed, 4 passed, 5 total",
        "Tests:       2 failed, 18 passed, 20 total",
        "Snapshots:   0 total",
        "Time:        4.21 s"] },
   { planId := "plan-b"
     passed := true
     summary := "All tests passing after role fallback fix."
     output := String.intercalate "\n"
       [" RUNS  test/userService.test.ts",
        " PASS  test/userService.test.ts",
        " PASS  test/roles.test.ts",
        "",
        "Test Suites: 5 passed, 5 total",
        "Tests:       20 passed, 20 total",
        "Snapshots:   0 total",
        "Time:        3.97 s"] },
   { planId := "plan-c"
     passed := false
     summary := "Mocks updated but integration still failing."
     output := String.intercalate "\n"
       [" RUNS  test/userService.test.ts",
        " FAIL  test/userService.test.ts",
        "  ● UserService › maps roles",
        "    Expected: \"admin\"",
        "    Received: \"viewer\"",
        "",
        "Test Suites: 1 failed, 4 passed, 5 total",
        "Tests:       1 failed, 19 passed, 20 total",
        "Snapshots:   0 total",
        "Time:        4.02 s"] },
   { planId := "plan-d"
     passed := false
     summary := "Input validation changed but tests still failing."
     output := String.intercalate "\n"
       [" RUNS  test/userService.test.ts",
        " FAIL  test/userService.test.ts",
        "  ● UserService › returns default role",
        "    Expected: \"viewer\"",
        "    Received: \"guest\"",
        "",
        "Test Suites: 1 failed, 4 passed, 5 total",
        "Tests:       1 failed, 19 passed, 20 total",
        "Snapshots:   0 total",
        "Time:        4.08 s"] }]

/-- `selectOutput` of the mock adapter: pick the fixture row for the plan id
(falling back to the first row) and attach reliability 0.9 on pass, 0.75 on
fail.  The random duration component is passed in as `rand`. -/
def selectOutput (requestPlanId : String) (rand : Nat) : VerificationResult :=
  let matchRow := (mockOutputs.find? (fun item => item.planId = requestPlanId)).getD
    ((mockOutputs.get? 0).getD { planId := "", passed := false, summary := "", output := "" })
  { passed := matchRow.passed
    output := matchRow.output
    durationMs := 3500 + (rand % 900 : Nat)
    summary := matchRow.summary
    reliability := some (if matchRow.passed then 9 / 10 else 75 / 100)
    adapterName := some "mock" }

/-- The structured result of the `verify_plan` MCP tool
(`McpToolResult` in the server, `VerifyOutput` in `mcp/conclave-tools`). -/
structure McpToolResult where
  evidenceId : String
  status : String
  summary : String
  logs : List String
  exitCode : Option Int := none
  startedAt : Nat
  finishedAt : Nat
  reliability : ℚ
deriving DecidableEq, Repr

/-- One row of `buildMockLogs` in `mcp/conclave-tools/index.ts`. -/
structure MockLogRow where
  passed : Bool
  summary : String
  logs : List String
deriving DecidableEq, Repr

/-- `buildMockLogs` of `mcp/conclave-tools/index.ts`: fixture logs per plan id,
defaulting to the plan-a row. -/
def buildMockLogs (planId : String) : MockLogRow :=
  if planId = "plan-a" then
    { passed := false
      summary := "Two tests still failing after change."
      logs := [" RUNS  test/userService.test.ts",
               " FAIL  test/userService.test.ts",
               "  ● UserService › returns default role",
               "    Expected: \"viewer\"",
               "    Received: undefined",
               "",
               "Test Suites: 1 failed, 4 passed, 5 total",
               "Tests:       2 failed, 18 passed, 20 total"] }
  else if planId = "plan-b" then
    { passed := true
      summary := "All tests passing after role fallback fix."
      logs := [" RUNS  test/userService.test.ts",
               " PASS  test/userService.test.ts",
               " PASS  test/roles.test.ts",
               "",
               "Test Suites: 5 passed, 5 total",
               "Tests:       20 passed, 20 total"] }
  else if planId = "plan-c" then
    { passed := false
      summary := "Mocks updated but integration still failing."
      logs := [" RUNS  test/userService.test.ts",
               " FAIL  test/userService.test.ts",
               "  ● UserService › maps roles",
               "    Expected: \"admin\"",
               "    Received: \"viewer\""] }
  else if planId = "plan-d" then
    { passed := false
      summary := "Input validation changed but tests still failing."
      logs := [" RUNS  test/userService.test.ts",
               " FAIL  test/userService.test.ts",
               "  ● UserService › returns default role",
               "    Expected: \"viewer\"",
               "    Received: \"guest\""] }
  else
    { passed := false
      summary := "Two tests still failing after change."
      logs := [" RUNS  test/userService.test.ts",
               " FAIL  test/userService.test.ts",
               "  ● UserService › returns default role",
               "    Expected: \"viewer\"",
               "    Received: undefined",
               "",
               "Test Suites: 1 failed, 4 passed, 5 total",
               "Tests:       2 failed, 18 passed, 20 total"] }

/-- The input of the `verify_plan` MCP tool. -/
structure VerifyInput where
  sessionId : String
  planId : String
  mode : String
  fixturePath : Option String := none
  command : Option String := none
  apiKey : Option String := none
deriving DecidableEq, Repr

/-- The `verify_plan` tool handler of `mcp/conclave-tools/index.ts`: mode
"real" always yields an explicit error result with reliability 0.2; mode
"mock" yields the fixture result with reliability 0.9 on pass, 0.75 on fail.
Clock reads are passed in as `startedAt` / `finishedAt` / `dateNow`. -/
def verifyPlanTool (envApiKey : Option String) (input : VerifyInput)
    (startedAt finishedAt dateNow : Nat) : Except String McpToolResult :=
  if envApiKey.isSome ∧ input.apiKey ≠ envApiKey then
    Except.error "Unauthorized"
  else
    let evidenceId :=
      "evidence-" ++ input.sessionId ++ "-" ++ input.planId ++ "-" ++ toString dateNow
    if input.mode = "real" then
      Except.ok
        { evidenceId := evidenceId
          status := "error"
          summary := "Real verification not implemented yet."
          logs := ["Real verification is not implemented.",
                   "fixturePath=" ++ input.fixturePath.getD "unset",
                   "command=" ++ input.command.getD "unset"]
          exitCode := some 1
          startedAt := startedAt
          finishedAt := finishedAt
          reliability := 2 / 10 }
    else
      let mock := buildMockLogs input.planId
      Except.ok
        { evidenceId := evidenceId
          status := if mock.passed then "pass" else "fail"
          summary := mock.summary
          logs := mock.logs
          exitCode := some (if mock.passed then 0 else 1)
          startedAt := startedAt
          finishedAt := finishedAt
          reliability := if mock.passed then 9 / 10 else 75 / 100 }

/-- The verification mode resolution of `runDebate` (lines 613-621):
environment override "real"/"mock" wins, otherwise code scenarios default to
"real" and others to "mock". -/
def resolveVerificationMode (envMode : Option String) (codeScenario : Bool) : String :=
  let verificationMode := toLowerStr (envMode.getD "auto")
  if verificationMode = "real" then "real"
  else if verificationMode = "mock" then "mock"
  else if codeScenario then "real" else "mock"

/-- The verification try/catch block of `runDebate` (lines 596-665), given the
outcome of the awaited `callMcpTool` call (`Except.error` models a thrown or
timed-out call).  Returns the resolved `VerificationResult` and the warnings
this block appends to `generationWarnings`. -/
def mcpVerificationBlock (proposals : List Proposal) (plans : List DebatePlan)
    (mcpOutcome : Except String McpToolResult) (rand : Nat) :
    VerificationResult × List String :=
  let targetPlanId := verificationCallPlanId proposals plans
  let targetPlan := (plans.find? (fun plan => plan.id = targetPlanId)).orElse
    (fun _ => plans.head?)
  match mcpOutcome with
  | Except.ok result =>
    let verification : VerificationResult :=
      { passed := result.status = "pass"
        output := String.intercalate "\n" result.logs
        durationMs := (result.finishedAt : Int) - (result.startedAt : Int)
        summary := result.summary
        reliability := some result.reliability
        adapterName := some "mcp"
        startedAt := some result.startedAt
        finishedAt := some result.finishedAt
        warning :=
          if result.status = "error" then some "MCP verification error; falling back to mock."
          else none }
    if result.status = "error" then
      let fallbackPlanId :=
        (((targetPlan.orElse (fun _ => plans.get? 1)).map (fun plan => plan.id)).getD "")
      let fallback := selectOutput fallbackPlanId rand
      ({ fallback with
          warning := some "MCP verification failed; fell back to mock."
          adapterName := some "mock" }, [])
    else
      (verification, [])
  | Except.error message =>
    let fallback := selectOutput ((((plans.get? 1)).map (fun plan => plan.id)).getD "") rand
    ({ fallback with
        warning := some "MCP verification failed; fell back to mock."
        adapterName := some "mock" },
     ["MCP verification failed; fell back to mock. " ++ message])

/-- The default "skipped" verification record of `runDebate` (lines 538-544);
the selected adapter is always the mock adapter, so `adapter.name` is "mock". -/
def skippedVerificationResult : VerificationResult :=
  { passed := true
    output := "Verification skipped."
    durationMs := 0
    summary := "Verification skipped."
    adapterName := some "mock" }

/-- `DebateTimelineEvent` of the types module. -/
structure DebateTimelineEvent where
  id : String
  label : String
  timestamp : Nat
  details : String
deriving DecidableEq, Repr

/-- `buildTimeline` of `debate-engine.ts` (lines 339-370): always exactly four
fixed events at run-start offsets 0, 9, 15 and 18 minutes. -/
def buildTimeline (adapterName : String) (runVerification : Bool) :
    List DebateTimelineEvent :=
  [{ id := "timeline-plans"
     label := "Plans proposed"
     timestamp := 0
     details := "Planner proposed four candidate plans." },
   { id := "timeline-debate"
     label := "Debate round"
     timestamp := 9
     details := "Skeptic, Security, and Cost reviewed the plan set." },
   { id := "timeline-verification"
     label := "Verification run"
     timestamp := 15
     details :=
       if runVerification then "Verification run executed via " ++ adapterName ++ " adapter."
       else "Verification skipped for this run; evidence based on debate only." },
   { id := "timeline-synthesis"
     label := "Synthesized outcome"
     timestamp := 18
     details := "Synthesizer produced final recommendation and patch." }]

/-- `DebateDiff` of the types module. -/
structure DebateDiff where
  summary : String
  diff : String
deriving DecidableEq, Repr

/-- `buildDiff` of `debate-engine.ts` (lines 185-203), the fixture patch. -/
def buildDiff : DebateDiff :=
  { summary := "Example patch output (fixture)."
    diff := String.intercalate "\n"
      ["diff --git a/src/services/userService.ts b/src/services/userService.ts",
       "index 1b233d1..56c92fa 100644",
       "--- a/src/services/userService.ts",
       "+++ b/src/services/userService.ts",
       "@@ -14,7 +14,12 @@ export const mapUser = (payload: AuthPayload): User => \x7b",
       "-  const role = payload.role;",
       "+  const role = payload.role ?? \"viewer\";",
       "   return \x7b",
       "     id: payload.id,",
       "-    role,",
       "+    role,",
       "     name: payload.name,",
       "   \x7d;",
       " \x7d;"] }

/-- `EvidenceLedgerEntry` of the types module. -/
structure EvidenceLedgerEntry where
  id : String
  planId : String
  agent : String
  type : String
  summary : String
  details : String
  reliability : ℚ
  timestamp : Nat
deriving DecidableEq, Repr

/-- `buildEvidence` of `debate-engine.ts` (lines 372-470): planner and
security analysis entries, one log entry per generation warning, the
verification entry (type "test" when verification ran, "analysis" when it was
skipped), an optional verification-warning log entry, and optionally the
fixture patch entry. -/
def buildEvidence (verification : VerificationResult) (planId : String)
    (runVerification : Bool) (generationWarnings : List String)
    (plans : List DebatePlan) (includePatch : Bool) : List EvidenceLedgerEntry :=
  let selectedPlan := plans.find? (fun plan => plan.id = planId)
  let selectedSummary := (selectedPlan.map (fun plan => plan.summary)).getD
    "Selected plan summary unavailable."
  let selectedRisk := (selectedPlan.bind (fun plan => plan.risks.head?)).getD
    "Primary risk not specified."
  let verificationEntry : EvidenceLedgerEntry :=
    if runVerification then
      { id := "evidence-verification"
        planId := planId
        agent := "synthesizer"
        type := "test"
        summary := verification.summary
        details := verification.output
        reliability := (verification.reliability).getD
          (if verification.passed then 9 / 10 else 75 / 100)
        timestamp := 16 }
    else
      { id := "evidence-verification"
        planId := planId
        agent := "synthesizer"
        type := "analysis"
        summary := "Verification skipped."
        details := "Verification was skipped for this run; evidence relies on agent debate."
        reliability := 55 / 100
        timestamp := 16 }
  let warningEntries := generationWarnings.enum.map fun indexed =>
    { id := "evidence-generation-warning-" ++ toString indexed.1
      planId := planId
      agent := "synthesizer"
      type := "log"
      summary := "Generation warning"
      details := indexed.2
      reliability := 35 / 100
      timestamp := 5 + indexed.1 : EvidenceLedgerEntry }
  let entries : List EvidenceLedgerEntry :=
    [{ id := "evidence-planner"
       planId := planId
       agent := "planner"
       type := "analysis"
       summary := "Planner rationale captured for selected plan."
       details := selectedSummary
       reliability := 62 / 100
       timestamp := 2 },
     { id := "evidence-security"
       planId := planId
       agent := "security"
       type := "analysis"
       summary := "Security flagged key risk for selected plan."
       details := selectedRisk
       reliability := 7 / 10
       timestamp := 7 }]
    ++ warningEntries
    ++ [verificationEntry]
    ++ (match verification.warning with
        | some warning =>
          [{ id := "evidence-warning"
             planId := planId
             agent := "synthesizer"
             type := "log"
             summary := "Verification warning"
             details := warning
             reliability := 4 / 10
             timestamp := 17 }]
        | none => [])
  if includePatch then
    entries ++
      [{ id := "evidence-patch"
         planId := planId
         agent := "synthesizer"
         type := "patch"
         summary := "Example patch output."
         details := buildDiff.diff
         reliability := 8 / 10
         timestamp := 18 }]
  else entries

/-- The claim-relevant projection of the `DebateSession` aggregate returned by
`runDebate`.  Presentation-only string fields (transcript, uncertainty
summary, belief statement, action recommendation, final response, model and
prompt metadata) are outside every claim and are not modelled. -/
structure DebateSession where
  id : String
  scenario : String
  plans : List DebatePlan
  probabilities : List ProbabilitySnapshot
  evidenceLedger : List EvidenceLedgerEntry
  timeline : List DebateTimelineEvent
  finalPlanId : String
  weights : DebateWeights
  runVerification : Bool
  generationWarnings : List String
  codeScenario : Bool
deriving DecidableEq, Repr

/-- The outcome of `runDebate`, claim-relevant portion (lines 487-894):
resolve weights, classify (a failure only appends a warning), decide
verification, collect proposals (all failures model as an empty list), raise
the fatal error when no proposal survived, derive plans, resolve verification
through the MCP block, build the snapshot pipeline, and assemble the session.
External-capability outcomes are inputs: `classification` for
`classifyPrompt`, `proposals`/`proposalWarnings` for the proposal loop,
`mcpOutcome` for `callMcpTool`, `rand` for the mock adapter's random duration
and `baseMs` for `baseTime.getTime()`.  Warnings from the final synthesis
calls land after every warning modelled here and are not load-bearing for any
claim. -/
def runDebateModel (scenarioText : String) (runVerificationRequested : Bool)
    (overrides : WeightOverrides) (classification : Except String String)
    (proposals : List Proposal) (proposalWarnings : List String)
    (mcpOutcome : Except String McpToolResult) (rand : Nat) (baseMs : Nat) :
    Except String DebateSession :=
  let weights := resolveWeights overrides
  let codeScenario := isCodeScenario scenarioText
  let decision := verificationDecisionStage scenarioText runVerificationRequested
  let runVerification := decision.1
  let classificationWarnings :=
    match classification with
    | Except.ok _ => []
    | Except.error message =>
      ["Prompt classification failed; defaulting to reasoning-analysis. " ++ message]
  let earlyWarnings := classificationWarnings ++ decision.2 ++ proposalWarnings
  if proposals.length = 0 then
    Except.error "LLM proposal generation failed for all agents."
  else
    let plans := plansFromProposals proposals
    let verificationPair :=
      if runVerification then mcpVerificationBlock proposals plans mcpOutcome rand
      else (skippedVerificationResult, [])
    let verification := verificationPair.1
    let generationWarnings := earlyWarnings ++ verificationPair.2
    let pipeline := debateProbabilities plans proposals weights runVerification verification
    let finalPlanId := pickFinalPlanId pipeline.2
    let adapterName := (verification.adapterName).getD "mock"
    let timeline := buildTimeline adapterName runVerification
    let evidenceLedger :=
      if runVerification && codeScenario then
        buildEvidence verification finalPlanId runVerification generationWarnings plans true
      else []
    Except.ok
      { id := "session-" ++ toString baseMs
        scenario := scenarioText
        plans := plans
        probabilities := pipeline.1
        evidenceLedger := evidenceLedger
        timeline := timeline
        finalPlanId := finalPlanId
        weights := weights
        runVerification := runVerification
        generationWarnings := generationWarnings
        codeScenario := codeScenario }

/-- `truncate` of the HTTP server (`part_004`): cut to 1000 characters and
append an ellipsis. -/
def truncate1000 (value : String) : String :=
  if value.length > 1000 then value.take 1000 ++ "..." else value

/-- `trimSession` of the HTTP server: truncate generation warnings and
evidence details before persisting. -/
def trimSession (session : DebateSession) : DebateSession :=
  { session with
      generationWarnings := session.generationWarnings.map truncate1000
      evidenceLedger := session.evidenceLedger.map fun entry =>
        { entry with details := truncate1000 entry.details } }

/-- The persistence step of `handleRun`: `sessions.unshift(trimSession(session))`
followed by `writeSessions(sessions.slice(0, 25))` — prepend the trimmed
session, then truncate the list to 25. -/
def persistCompletedRun (stored : List DebateSession) (session : DebateSession) :
    List DebateSession :=
  (trimSession session :: stored).take 25

/-- `handleRun` of the HTTP server, claim-relevant portion: a successful run
is persisted and returned; a thrown run error is reported and nothing is
written. -/
def handleRunModel (stored : List DebateSession) (outcome : Except String DebateSession) :
    List DebateSession × Except String DebateSession :=
  match outcome with
  | Except.ok session => (persistCompletedRun stored session, Except.ok session)
  | Except.error message => (stored, Except.error message)

/-- Iterated persistence over a sequence of completed runs, earliest first. -/
def persistAll (stored : List DebateSession) (runs : List DebateSession) :
    List DebateSession :=
  runs.foldl persistCompletedRun stored

/-- Concrete entry list used to instantiate theorems with hypotheses. -/
def sampleEntries : List ProbabilityEntry :=
  [{ planId := "plan-a", probability := 1 / 2, updatedBy := "planner",
     rationale := "r", timestamp := 1 },
   { planId := "plan-b", probability := 1 / 4, updatedBy := "planner",
     rationale := "r", timestamp := 1 },
   { planId := "plan-c", probability := 1 / 4, updatedBy := "planner",
     rationale := "r", timestamp := 1 },
   { planId := "plan-d", probability := 0, updatedBy := "planner",
     rationale := "r", timestamp := 1 }]

/-- Concrete proposal set: the planner is most confident, the skeptic close
behind, security and cost far behind. -/
def sampleProposals : List Proposal :=
  [{ agent := "planner", proposal := "Backfill the role default.", summary := "s1",
     risk := "k1", riskSeverity := 2, rationale := ["Check mapping", "Add fallback"],
     confidence := 9 / 10 },
   { agent := "skeptic", proposal := "Fix the auth payload mapping.", summary := "s2",
     risk := "k2", riskSeverity := 3, rationale := ["Normalize payload"],
     confidence := 8 / 10 },
   { agent := "security", proposal := "Update the mocks.", summary := "s3",
     risk := "k3", riskSeverity := 1, rationale := ["Inspect fixtures"],
     confidence := 1 / 10 },
   { agent := "cost", proposal := "Adjust validation.", summary := "s4",
     risk := "k4", riskSeverity := 1, rationale := ["Check rules"],
     confidence := 1 / 10 }]

/-- The plan set derived from `sampleProposals`. -/
def samplePlans : List DebatePlan := plansFromProposals sampleProposals

/-- Concrete weights: the planner carries no weight, the skeptic full weight,
so the belief leader and the confidence leader come apart. -/
def sampleWeights : DebateWeights :=
  { planner := 0, skeptic := 1, security := 0, cost := 0, synthesizer := 6 / 10 }

/-- Concrete verification result carrying an explicit reliability. -/
def sampleVerification : VerificationResult :=
  { passed := true
    output := "All tests passing."
    durationMs := 4000
    summary := "Verification passed."
    reliability := some (9 / 10)
    adapterName := some "mcp" }

/-- Concrete completed-run session used to exercise the persistence fold. -/
def sampleSession (index : Nat) : DebateSession :=
  { id := "session-" ++ toString index
    scenario := "Fix failing test"
    plans := []
    probabilities := []
    evidenceLedger := []
    timeline := []
    finalPlanId := "plan-a"
    weights := defaultWeights
    runVerification := false
    generationWarnings := []
    codeScenario := true }

/- ------------------------------------------------------------------ -/
/- Theorems.                                                          -/
/- ------------------------------------------------------------------ -/

theorem foldl_add_probability (l : List ProbabilityEntry) (a : ℚ) :
    l.foldl (fun sum entry => sum + entry.probability) a
      = a + (l.map (fun e => e.probability)).sum := by
  induction l generalizing a with
  | nil => simp
  | cons x xs ih => simp [List.foldl_cons, ih, add_assoc]

theorem totalProbability_eq_sum (entries : List ProbabilityEntry) :
    totalProbability entries = (entries.map (fun e => e.probability)).sum := by
  simpa [totalProbability] using foldl_add_probability entries 0

theorem map_probability_set (l : List ProbabilityEntry) (f : ProbabilityEntry → ℚ) :
    (l.map (fun e => { e with probability := f e })).map (fun e => e.probability)
      = l.map f := by
  simp [List.map_map]

theorem length_normalizeEntries (entries : List ProbabilityEntry) :
    (normalizeEntries entries).length = entries.length := by
  simp only [normalizeEntries]
  split <;> simp

theorem normalizeEntries_sum_one (entries : List ProbabilityEntry) (hne : entries ≠ []) :
    ((normalizeEntries entries).map (fun e => e.probability)).sum = 1 := by
  have hlen : 0 < entries.length := List.length_pos.mpr hne
  have hN : ((entries.length : ℚ)) ≠ 0 := by exact_mod_cast hlen.ne'
  simp only [normalizeEntries]
  split
  case isTrue h =>
    rw [map_probability_set]
    rw [show (fun _ : ProbabilityEntry => (1 : ℚ) / (entries.length : ℚ))
        = Function.const ProbabilityEntry ((1 : ℚ) / (entries.length : ℚ)) from rfl]
    rw [List.map_const, List.sum_replicate, nsmul_eq_mul]
    field_simp
  case isFalse h =>
    rw [map_probability_set]
    have hdiv : entries.map (fun e => e.probability / totalProbability entries)
        = entries.map (fun e => e.probability * (totalProbability entries)⁻¹) := by
      exact List.map_congr_left fun a _ => div_eq_mul_inv _ _
    rw [hdiv, List.sum_map_mul_right, ← totalProbability_eq_sum]
    exact mul_inv_cancel₀ h

theorem normalizeEntries_bounds (entries : List ProbabilityEntry) (hne : entries ≠ [])
    (hnn : ∀ e ∈ entries, 0 ≤ e.probability) :
    ∀ e ∈ normalizeEntries entries, 0 ≤ e.probability ∧ e.probability ≤ 1 := by
  have hlen : 0 < entries.length := List.length_pos.mpr hne
  have hN1 : (1 : ℚ) ≤ (entries.length : ℚ) := by exact_mod_cast hlen
  intro e he
  simp only [normalizeEntries] at he
  split at he
  case isTrue h =>
    obtain ⟨a, _, rfl⟩ := List.mem_map.mp he
    refine ⟨by positivity, ?_⟩
    show (1 : ℚ) / (entries.length : ℚ) ≤ 1
    rw [div_le_one (by linarith)]
    exact hN1
  case isFalse h =>
    have ht0 : 0 ≤ totalProbability entries := by
      rw [totalProbability_eq_sum]
      refine List.sum_nonneg ?_
      intro x hx
      obtain ⟨a, ha, rfl⟩ := List.mem_map.mp hx
      exact hnn a ha
    have ht : 0 < totalProbability entries := lt_of_le_of_ne ht0 (Ne.symm h)
    obtain ⟨a, ha, rfl⟩ := List.mem_map.mp he
    refine ⟨div_nonneg (hnn a ha) ht0, ?_⟩
    show a.probability / totalProbability entries ≤ 1
    rw [div_le_one ht, totalProbability_eq_sum]
    refine List.single_le_sum ?_ _ (List.mem_map_of_mem (fun e => e.probability) ha)
    intro x hx
    obtain ⟨b, hb, rfl⟩ := List.mem_map.mp hx
    exact hnn b hb

theorem sum_map_affine (l : List ℚ) (a b : ℚ) :
    (l.map (fun x => a * x + b)).sum = a * l.sum + l.length * b := by
  induction l with
  | nil => simp
  | cons x xs ih =>
    simp only [List.map_cons, List.sum_cons, ih, List.length_cons]
    push_cast
    ring

theorem dampAndNormalize_map_probability (entries : List ProbabilityEntry) :
    (dampAndNormalize entries).map (fun e => e.probability)
      = ((normalizeEntries entries).map (fun e => e.probability)).map
          (fun q => (1 - DAMPING_FACTOR) * q
            + DAMPING_FACTOR * (1 / (entries.length : ℚ))) := by
  simp only [dampAndNormalize, length_normalizeEntries]
  rw [map_probability_set, List.map_map]
  rfl

theorem dampAndNormalize_sum_one (entries : List ProbabilityEntry) (hne : entries ≠ []) :
    totalProbability (dampAndNormalize entries) = 1 := by
  have hlen : 0 < entries.length := List.length_pos.mpr hne
  have hN : ((entries.length : ℚ)) ≠ 0 := by exact_mod_cast hlen.ne'
  rw [totalProbability_eq_sum, dampAndNormalize_map_probability, sum_map_affine,
    normalizeEntries_sum_one entries hne, List.length_map, length_normalizeEntries]
  field_simp

theorem length_dampAndNormalize (entries : List ProbabilityEntry) :
    (dampAndNormalize entries).length = entries.length := by
  simp [dampAndNormalize, length_normalizeEntries]

/-- C1: for every nonempty entry list with non-negative probabilities,
`dampAndNormalize` returns entries whose probabilities sum to exactly 1 (hence
within 1e-9), and with N entries each output probability is at least
`DAMPING_FACTOR / N` (0.02 for N = 4) and at most
`1 - DAMPING_FACTOR * (N - 1) / N`. -/
theorem dampAndNormalize_sum_and_residual_floor (entries : List ProbabilityEntry)
    (hne : entries ≠ []) (hnn : ∀ e ∈ entries, 0 ≤ e.probability) :
    totalProbability (dampAndNormalize entries) = 1 ∧
    ∀ e ∈ dampAndNormalize entries,
      DAMPING_FACTOR / (entries.length : ℚ) ≤ e.probability ∧
      e.probability ≤ 1 - DAMPING_FACTOR * ((entries.length : ℚ) - 1)
        / (entries.length : ℚ) := by
  have hlen : 0 < entries.length := List.length_pos.mpr hne
  have hN : (0 : ℚ) < (entries.length : ℚ) := by exact_mod_cast hlen
  refine ⟨dampAndNormalize_sum_one entries hne, ?_⟩
  intro e he
  simp only [dampAndNormalize, length_normalizeEntries] at he
  obtain ⟨a, ha, rfl⟩ := List.mem_map.mp he
  obtain ⟨h0, h1⟩ := normalizeEntries_bounds entries hne hnn a ha
  have hd0 : (0 : ℚ) ≤ 1 - DAMPING_FACTOR := by norm_num [DAMPING_FACTOR]
  constructor
  · show DAMPING_FACTOR / (entries.length : ℚ)
      ≤ (1 - DAMPING_FACTOR) * a.probability
        + DAMPING_FACTOR * (1 / (entries.length : ℚ))
    have hpos : 0 ≤ (1 - DAMPING_FACTOR) * a.probability := mul_nonneg hd0 h0
    have heq : DAMPING_FACTOR / (entries.length : ℚ)
        = DAMPING_FACTOR * (1 / (entries.length : ℚ)) := by ring
    linarith
  · show (1 - DAMPING_FACTOR) * a.probability
      + DAMPING_FACTOR * (1 / (entries.length : ℚ))
      ≤ 1 - DAMPING_FACTOR * ((entries.length : ℚ) - 1) / (entries.length : ℚ)
    have key : 1 - DAMPING_FACTOR * ((entries.length : ℚ) - 1) / (entries.length : ℚ)
        = (1 - DAMPING_FACTOR) + DAMPING_FACTOR * (1 / (entries.length : ℚ)) := by
      field_simp
      ring
    rw [key]
    have := mul_le_mul_of_nonneg_left h1 hd0
    linarith

/-- Witness for C1 at a concrete four-entry list. -/
theorem dampAndNormalize_sum_and_residual_floor_witness :
    (sampleEntries ≠ [] ∧ ∀ e ∈ sampleEntries, 0 ≤ e.probability) ∧
    (totalProbability (dampAndNormalize sampleEntries) = 1 ∧
     ∀ e ∈ dampAndNormalize sampleEntries,
       DAMPING_FACTOR / (sampleEntries.length : ℚ) ≤ e.probability ∧
       e.probability ≤ 1 - DAMPING_FACTOR * ((sampleEntries.length : ℚ) - 1)
         / (sampleEntries.length : ℚ)) := by
  have h1 : sampleEntries ≠ [] := by simp [sampleEntries]
  have h2 : ∀ e ∈ sampleEntries, 0 ≤ e.probability := by
    intro e he
    fin_cases he <;> norm_num
  exact ⟨⟨h1, h2⟩, dampAndNormalize_sum_and_residual_floor sampleEntries h1 h2⟩

theorem clampUnit_of_unit (x : ℚ) (h0 : 0 ≤ x) (h1 : x ≤ 1) : clampUnit x = x := by
  simp [clampUnit, max_eq_right h0, min_eq_right h1]

/-- C7: on probabilities in the unit interval, `applyWeightedUpdate` with
weight 0 leaves every probability (the target's included) unchanged; with
weight 1 it sets the targeted plan's probability exactly to the asserted
value; and for every weight the non-targeted entries pass through as
unchanged records. -/
theorem applyWeightedUpdate_weight_endpoints (previous : List ProbabilityEntry)
    (update : ProbabilityUpdate) (ts : Nat)
    (hprob : ∀ e ∈ previous, 0 ≤ e.probability ∧ e.probability ≤ 1)
    (hasserted : 0 ≤ update.probability ∧ update.probability ≤ 1) :
    ((applyWeightedUpdate previous update ts 0).map (fun e => e.probability)
        = previous.map (fun e => e.probability)) ∧
    ((applyWeightedUpdate previous update ts 1).map (fun e => e.probability)
        = previous.map (fun e =>
            if e.planId = update.planId then update.probability else e.probability)) ∧
    (∀ w : ℚ, ∀ i : Nat, ∀ e, previous[i]? = some e → e.planId ≠ update.planId →
        (applyWeightedUpdate previous update ts w)[i]? = some e) := by
  refine ⟨?_, ?_, ?_⟩
  · rw [applyWeightedUpdate, List.map_map]
    refine List.map_congr_left ?_
    intro a ha
    by_cases h : a.planId = update.planId
    · simp only [Function.comp_apply, h, ne_eq, not_true_eq_false, if_false]
      show clampUnit (a.probability * (1 - 0) + update.probability * 0) = a.probability
      rw [show a.probability * (1 - 0) + update.probability * 0 = a.probability by ring]
      exact clampUnit_of_unit _ (hprob a ha).1 (hprob a ha).2
    · simp [Function.comp, h]
  · rw [applyWeightedUpdate, List.map_map]
    refine List.map_congr_left ?_
    intro a _
    by_cases h : a.planId = update.planId
    · simp only [Function.comp_apply, h, ne_eq, not_true_eq_false, if_false, if_pos rfl]
      show clampUnit (a.probability * (1 - 1) + update.probability * 1) = update.probability
      rw [show a.probability * (1 - 1) + update.probability * 1
          = update.probability by ring]
      exact clampUnit_of_unit _ hasserted.1 hasserted.2
    · simp [Function.comp, h]
  · intro w i e hi hne
    rw [applyWeightedUpdate, List.getElem?_map, hi]
    simp [hne]

/-- Witness for C7 at a concrete entry list and update. -/
theorem applyWeightedUpdate_weight_endpoints_witness :
    ((∀ e ∈ sampleEntries, 0 ≤ e.probability ∧ e.probability ≤ 1) ∧
     (0 ≤ (3 / 5 : ℚ) ∧ (3 / 5 : ℚ) ≤ 1)) ∧
    ((applyWeightedUpdate sampleEntries
        { planId := "plan-b", probability := 3 / 5, updatedBy := "synthesizer",
          rationale := "r" } 5 0).map (fun e => e.probability)
        = sampleEntries.map (fun e => e.probability)) := by
  have h1 : ∀ e ∈ sampleEntries, 0 ≤ e.probability ∧ e.probability ≤ 1 := by
    intro e he
    fin_cases he <;> norm_num
  have h2 : 0 ≤ (3 / 5 : ℚ) ∧ (3 / 5 : ℚ) ≤ 1 := by norm_num
  exact ⟨⟨h1, h2⟩,
    (applyWeightedUpdate_weight_endpoints sampleEntries
      { planId := "plan-b", probability := 3 / 5, updatedBy := "synthesizer",
        rationale := "r" } 5 h1 h2).1⟩

theorem dampAndNormalize_of_uniform (l : List ProbabilityEntry) (hne : l ≠ [])
    (hu : ∀ e ∈ l, e.probability = 1 / (l.length : ℚ)) :
    dampAndNormalize l = l := by
  have hlen : 0 < l.length := List.length_pos.mpr hne
  have hN : ((l.length : ℚ)) ≠ 0 := by exact_mod_cast hlen.ne'
  have htotal : totalProbability l = 1 := by
    rw [totalProbability_eq_sum, List.map_congr_left hu,
      show (fun _ : ProbabilityEntry => (1 : ℚ) / (l.length : ℚ))
        = Function.const ProbabilityEntry ((1 : ℚ) / (l.length : ℚ)) from rfl,
      List.map_const, List.sum_replicate, nsmul_eq_mul]
    field_simp
  have hnorm : normalizeEntries l = l := by
    simp only [normalizeEntries, htotal, one_ne_zero, if_false]
    refine Eq.trans (List.map_congr_left ?_) (List.map_id l)
    intro a _
    rw [show a.probability / 1 = a.probability from div_one _]
    rfl
  simp only [dampAndNormalize, hnorm]
  refine Eq.trans (List.map_congr_left ?_) (List.map_id l)
  intro a ha
  rw [show (1 - DAMPING_FACTOR) * a.probability + DAMPING_FACTOR * (1 / (l.length : ℚ))
      = a.probability by rw [hu a ha]; ring]
  rfl

/-- C10: the uniform distribution is a fixed point of `dampAndNormalize` (as a
full record-level identity), and in particular the initial snapshot built from
any four-plan set assigns exactly 0.25 to each plan. -/
theorem dampAndNormalize_uniform_fixed_point (entries : List ProbabilityEntry)
    (plans : List DebatePlan) (hne : entries ≠ [])
    (hu : ∀ e ∈ entries, e.probability = 1 / (entries.length : ℚ))
    (hplans : plans.length = 4) :
    dampAndNormalize entries = entries ∧
    ∀ e ∈ dampAndNormalize (initialProbabilitiesForPlans plans),
      e.probability = 1 / 4 := by
  have general : ∀ l : List ProbabilityEntry, l ≠ [] →
      (∀ e ∈ l, e.probability = 1 / (l.length : ℚ)) → dampAndNormalize l = l :=
    fun l h1 h2 => dampAndNormalize_of_uniform l h1 h2
  have hlenInit : (initialProbabilitiesForPlans plans).length = 4 := by
    simp [initialProbabilitiesForPlans, hplans]
  have hneInit : initialProbabilitiesForPlans plans ≠ [] := by
    intro h
    rw [h] at hlenInit
    simp at hlenInit
  have huInit : ∀ e ∈ initialProbabilitiesForPlans plans,
      e.probability = 1 / ((initialProbabilitiesForPlans plans).length : ℚ) := by
    intro e he
    simp only [initialProbabilitiesForPlans] at he
    obtain ⟨p, _, rfl⟩ := List.mem_map.mp he
    rw [hlenInit]
    norm_num
  refine ⟨general entries hne hu, ?_⟩
  intro e he
  rw [general (initialProbabilitiesForPlans plans) hneInit huInit] at he
  simp only [initialProbabilitiesForPlans] at he
  obtain ⟨p, _, rfl⟩ := List.mem_map.mp he
  norm_num

/-- Witness for C10 at the initial distribution of a concrete plan set. -/
theorem dampAndNormalize_uniform_fixed_point_witness :
    (initialProbabilitiesForPlans samplePlans ≠ [] ∧
     (∀ e ∈ initialProbabilitiesForPlans samplePlans,
        e.probability = 1 / ((initialProbabilitiesForPlans samplePlans).length : ℚ)) ∧
     samplePlans.length = 4) ∧
    (dampAndNormalize (initialProbabilitiesForPlans samplePlans)
        = initialProbabilitiesForPlans samplePlans ∧
     ∀ e ∈ dampAndNormalize (initialProbabilitiesForPlans samplePlans),
       e.probability = 1 / 4) := by
  have hplans : samplePlans.length = 4 := by decide
  have hlen : (initialProbabilitiesForPlans samplePlans).length = 4 := by
    simp [initialProbabilitiesForPlans, hplans]
  have hne : initialProbabilitiesForPlans samplePlans ≠ [] := by
    intro h
    rw [h] at hlen
    simp at hlen
  have hu : ∀ e ∈ initialProbabilitiesForPlans samplePlans,
      e.probability = 1 / ((initialProbabilitiesForPlans samplePlans).length : ℚ) := by
    intro e he
    simp only [initialProbabilitiesForPlans] at he
    obtain ⟨p, _, rfl⟩ := List.mem_map.mp he
    rw [hlen]
    norm_num
  exact ⟨⟨hne, hu, hplans⟩,
    dampAndNormalize_uniform_fixed_point (initialProbabilitiesForPlans samplePlans)
      samplePlans hne hu hplans⟩

theorem head?_insertDesc {α : Type} (f : α → ℚ) (x : α) (l : List α) :
    (insertDesc f x l).head? = maxStep f l.head? x := by
  cases l with
  | nil => rfl
  | cons y ys =>
    by_cases h : f y < f x
    · simp [insertDesc, h, maxStep]
    · simp [insertDesc, h, maxStep]

theorem head?_foldl_insertDesc {α : Type} (f : α → ℚ) (l : List α) :
    ∀ acc : List α,
      (l.foldl (fun acc x => insertDesc f x acc) acc).head?
        = l.foldl (maxStep f) acc.head? := by
  induction l with
  | nil => intro acc; rfl
  | cons x xs ih =>
    intro acc
    rw [List.foldl_cons, List.foldl_cons, ih, head?_insertDesc]

theorem head?_sortByDesc {α : Type} (f : α → ℚ) (l : List α) :
    (sortByDesc f l).head? = firstMaxBy f l := by
  simpa [sortByDesc, firstMaxBy] using head?_foldl_insertDesc f l []

theorem foldl_maxStep_some {α : Type} (f : α → ℚ) :
    ∀ (l : List α) (b0 : α), ∃ b, l.foldl (maxStep f) (some b0) = some b := by
  intro l
  induction l with
  | nil => intro b0; exact ⟨b0, rfl⟩
  | cons x xs ih =>
    intro b0
    rw [List.foldl_cons]
    by_cases hx : f b0 < f x
    · rw [show maxStep f (some b0) x = some x from by simp [maxStep, hx]]
      exact ih x
    · rw [show maxStep f (some b0) x = some b0 from by simp [maxStep, hx]]
      exact ih b0

theorem firstMaxBy_isSome {α : Type} (f : α → ℚ) (l : List α) (h : l ≠ []) :
    ∃ b, firstMaxBy f l = some b := by
  cases l with
  | nil => exact absurd rfl h
  | cons x xs =>
    rw [firstMaxBy, List.foldl_cons]
    exact foldl_maxStep_some f xs x

theorem foldl_maxStep_spec {α : Type} (f : α → ℚ) :
    ∀ (l : List α) (b0 b : α),
      l.foldl (maxStep f) (some b0) = some b →
      (b = b0 ∧ ∀ x ∈ l, f x ≤ f b0) ∨
      (∃ l1 l2, l = l1 ++ b :: l2 ∧ f b0 < f b ∧
        (∀ x ∈ l1, f x < f b) ∧ (∀ x ∈ l2, f x ≤ f b)) := by
  intro l
  induction l with
  | nil =>
    intro b0 b h
    simp only [List.foldl_nil, Option.some.injEq] at h
    exact Or.inl ⟨h.symm, by simp⟩
  | cons x xs ih =>
    intro b0 b h
    rw [List.foldl_cons] at h
    by_cases hx : f b0 < f x
    · rw [show maxStep f (some b0) x = some x from by simp [maxStep, hx]] at h
      rcases ih x b h with ⟨rfl, hall⟩ | ⟨l1, l2, rfl, hlt, h1, h2⟩
      · exact Or.inr ⟨[], xs, rfl, hx, by simp, hall⟩
      · refine Or.inr ⟨x :: l1, l2, rfl, lt_trans hx hlt, ?_, h2⟩
        intro y hy
        rcases List.mem_cons.mp hy with rfl | hy
        · exact hlt
        · exact h1 y hy
    · rw [show maxStep f (some b0) x = some b0 from by simp [maxStep, hx]] at h
      rcases ih b0 b h with ⟨rfl, hall⟩ | ⟨l1, l2, rfl, hlt, h1, h2⟩
      · refine Or.inl ⟨rfl, ?_⟩
        intro y hy
        rcases List.mem_cons.mp hy with rfl | hy
        · exact le_of_not_lt hx
        · exact hall y hy
      · refine Or.inr ⟨x :: l1, l2, rfl, hlt, ?_, h2⟩
        intro y hy
        rcases List.mem_cons.mp hy with rfl | hy
        · exact lt_of_le_of_lt (le_of_not_lt hx) hlt
        · exact h1 y hy

theorem firstMaxBy_spec {α : Type} (f : α → ℚ) (l : List α) (b : α)
    (h : firstMaxBy f l = some b) :
    ∃ l1 l2, l = l1 ++ b :: l2 ∧ (∀ x ∈ l1, f x < f b) ∧ (∀ x ∈ l2, f x ≤ f b) := by
  cases l with
  | nil => simp [firstMaxBy] at h
  | cons x xs =>
    rw [firstMaxBy, List.foldl_cons,
      show maxStep f none x = some x from rfl] at h
    rcases foldl_maxStep_spec f xs x b h with ⟨rfl, hall⟩ | ⟨l1, l2, rfl, hxb, h1, h2⟩
    · exact ⟨[], xs, rfl, by simp, hall⟩
    · refine ⟨x :: l1, l2, rfl, ?_, h2⟩
      intro y hy
      rcases List.mem_cons.mp hy with rfl | hy
      · exact hxb
      · exact h1 y hy

theorem clampWeight_of_unit (x : ℚ) (h0 : 0 ≤ x) (h1 : x ≤ 1) : clampWeight x = x := by
  simp [clampWeight, max_eq_right h0, min_eq_right h1]

theorem pickFinalPlanId_eq_firstMax (current : List ProbabilityEntry)
    (target : ProbabilityEntry)
    (h : firstMaxBy (fun e => e.probability) current = some target) :
    pickFinalPlanId current = target.planId := by
  rw [pickFinalPlanId, head?_sortByDesc, h]

/-- C2: when verification executes, the belief update stage targets the entry
with the current highest probability (ties resolved by original entry order:
the target splits the list into strictly smaller predecessors and
no-larger successors); the effective weight is exactly the synthesizer weight
times the evidence reliability (the clamp is the identity there); the asserted
probability is 0.82 on pass and 0.18 on fail; the update is followed by
`dampAndNormalize`; and the snapshot is recorded at run-start + 16 minutes. -/
theorem verificationStage_targets_leader (current : List ProbabilityEntry)
    (v : VerificationResult) (w r : ℚ) (hne : current ≠ [])
    (hrel : v.reliability = some r) (hw : 0 ≤ w ∧ w ≤ 1) (hr : 0 ≤ r ∧ r ≤ 1) :
    ∃ target, firstMaxBy (fun e => e.probability) current = some target ∧
      (∃ l1 l2, current = l1 ++ target :: l2 ∧
        (∀ x ∈ l1, x.probability < target.probability) ∧
        (∀ x ∈ l2, x.probability ≤ target.probability)) ∧
      pickFinalPlanId current = target.planId ∧
      clampWeight (w * r) = w * r ∧
      (verificationStage current v w
        = (let verified := dampAndNormalize
            ((applyWeightedUpdate current
              { planId := target.planId
                probability := if v.passed then 82 / 100 else 18 / 100
                updatedBy := "synthesizer"
                rationale :=
                  if v.passed then "Verification passed; confidence boosted with damping."
                  else "Verification failed; confidence reduced with damping." }
              16 (w * r)).map fun entry => { entry with timestamp := 16 })
           (verified,
            { timestamp := 16, note := "Verification results applied.",
              entries := verified }))) := by
  obtain ⟨target, htarget⟩ := firstMaxBy_isSome (fun e => e.probability) current hne
  have hchar := firstMaxBy_spec (fun e => e.probability) current target htarget
  have hpick := pickFinalPlanId_eq_firstMax current target htarget
  have hclamp : clampWeight (w * r) = w * r :=
    clampWeight_of_unit _ (mul_nonneg hw.1 hr.1)
      (mul_le_one₀ hw.2 hr.1 hr.2)
  refine ⟨target, htarget, hchar, hpick, hclamp, ?_⟩
  simp only [verificationStage, evaluateVerification, hrel, Option.getD_some, hpick,
    hclamp, recordSnapshot]

/-- Witness for C2 at a concrete distribution and verification result. -/
theorem verificationStage_targets_leader_witness :
    (sampleEntries ≠ [] ∧ sampleVerification.reliability = some (9 / 10) ∧
     (0 ≤ (6 / 10 : ℚ) ∧ (6 / 10 : ℚ) ≤ 1) ∧ (0 ≤ (9 / 10 : ℚ) ∧ (9 / 10 : ℚ) ≤ 1)) ∧
    (∃ target, firstMaxBy (fun e => e.probability) sampleEntries = some target ∧
      (∃ l1 l2, sampleEntries = l1 ++ target :: l2 ∧
        (∀ x ∈ l1, x.probability < target.probability) ∧
        (∀ x ∈ l2, x.probability ≤ target.probability)) ∧
      pickFinalPlanId sampleEntries = target.planId ∧
      clampWeight ((6 / 10 : ℚ) * (9 / 10)) = (6 / 10 : ℚ) * (9 / 10) ∧
      (verificationStage sampleEntries sampleVerification (6 / 10)
        = (let verified := dampAndNormalize
            ((applyWeightedUpdate sampleEntries
              { planId := target.planId
                probability := if sampleVerification.passed then 82 / 100 else 18 / 100
                updatedBy := "synthesizer"
                rationale :=
                  if sampleVerification.passed then
                    "Verification passed; confidence boosted with damping."
                  else "Verification failed; confidence reduced with damping." }
              16 ((6 / 10 : ℚ) * (9 / 10))).map fun entry => { entry with timestamp := 16 })
           (verified,
            { timestamp := 16, note := "Verification results applied.",
              entries := verified })))) := by
  have h1 : sampleEntries ≠ [] := by simp [sampleEntries]
  have h2 : sampleVerification.reliability = some (9 / 10) := rfl
  have h3 : (0 ≤ (6 / 10 : ℚ) ∧ (6 / 10 : ℚ) ≤ 1) := by norm_num
  have h4 : (0 ≤ (9 / 10 : ℚ) ∧ (9 / 10 : ℚ) ≤ 1) := by norm_num
  exact ⟨⟨h1, h2, h3, h4⟩,
    verificationStage_targets_leader sampleEntries sampleVerification (6 / 10) (9 / 10)
      h1 h2 h3 h4⟩

/-- C3 counterexample: the scenario "Plan a garden party" is not code-related
and the caller explicitly requests verification; the run skips verification,
but contrary to the claim no warning recording the override is appended — the
run completes with an empty warning list. -/
theorem nonCode_requested_verification_no_warning :
    isCodeScenario "Plan a garden party" = false ∧
    (runDebateModel "Plan a garden party" true {} (Except.ok "reasoning-analysis")
        sampleProposals [] (Except.error "unreachable") 0 0).map
      (fun session => (session.runVerification, session.generationWarnings))
      = Except.ok (false, []) := by
  exact ⟨by decide, rfl⟩

/-- C3 amended: a non-code scenario always skips verification regardless of
the caller's request and appends no warning at all; the auto-enable override
warning is appended exactly when the scenario is code-related and the caller
did not request verification. -/
theorem verification_decision_spec (scenarioText : String) (requested : Bool) :
    (isCodeScenario scenarioText = false →
      verificationDecisionStage scenarioText requested = (false, [])) ∧
    ((verificationDecisionStage scenarioText requested).2 = [autoEnableWarningText]
      ↔ (isCodeScenario scenarioText = true ∧ requested = false)) := by
  cases h : isCodeScenario scenarioText <;> cases requested <;>
    simp [verificationDecisionStage, h]

/-- Witness for the amended C3 at a concrete non-code scenario. -/
theorem verification_decision_spec_witness :
    isCodeScenario "Plan a garden party" = false ∧
    verificationDecisionStage "Plan a garden party" true = (false, []) := by
  have h : isCodeScenario "Plan a garden party" = false := by decide
  exact ⟨h, (verification_decision_spec "Plan a garden party" true).1 h⟩

/-- C5: if every proposal-generation call fails, `runDebate` raises the fatal
error, and `handleRun` persists nothing: the stored session list is unchanged
and the caller receives the error — so no session, snapshot sequence,
timeline or evidence ledger exists. -/
theorem all_proposals_failed_is_fatal (scenarioText : String) (requested : Bool)
    (overrides : WeightOverrides) (classification : Except String String)
    (proposalWarnings : List String) (mcpOutcome : Except String McpToolResult)
    (rand baseMs : Nat) (stored : List DebateSession) :
    runDebateModel scenarioText requested overrides classification [] proposalWarnings
        mcpOutcome rand baseMs
      = Except.error "LLM proposal generation failed for all agents." ∧
    handleRunModel stored
        (runDebateModel scenarioText requested overrides classification [] proposalWarnings
          mcpOutcome rand baseMs)
      = (stored, Except.error "LLM proposal generation failed for all agents.") := by
  have h : runDebateModel scenarioText requested overrides classification [] proposalWarnings
      mcpOutcome rand baseMs
      = Except.error "LLM proposal generation failed for all agents." := by
    simp [runDebateModel]
  exact ⟨h, by rw [h]; rfl⟩

theorem take_append_take {α : Type} (A B : List α) (n : Nat) :
    (A ++ B.take n).take n = (A ++ B).take n := by
  rw [List.take_append_eq_append_take, List.take_append_eq_append_take, List.take_take]
  congr 1
  exact congrArg B.take (Nat.min_eq_left (Nat.sub_le n A.length))

theorem persistAll_formula :
    ∀ (runs : List DebateSession) (stored : List DebateSession), stored.length ≤ 25 →
      persistAll stored runs = ((runs.reverse.map trimSession) ++ stored).take 25 := by
  intro runs
  induction runs with
  | nil =>
    intro stored h
    simp [persistAll, List.take_of_length_le h]
  | cons r rs ih =>
    intro stored h
    have hlen : (persistCompletedRun stored r).length ≤ 25 := by
      simp [persistCompletedRun]
    have step : persistAll stored (r :: rs) = persistAll (persistCompletedRun stored r) rs := by
      rw [persistAll, List.foldl_cons]
      rfl
    rw [step, ih (persistCompletedRun stored r) hlen, persistCompletedRun,
      take_append_take,
      show (rs.reverse.map trimSession) ++ (trimSession r :: stored)
        = ((rs.reverse ++ [r]).map trimSession) ++ stored from by simp,
      show rs.reverse ++ [r] = (r :: rs).reverse from (List.reverse_cons r rs).symm]

/-- C8: starting from a stored list of at most 25 sessions (every write leaves
at most 25), after more than 25 completed runs the persisted list is exactly
the 25 most recently completed (trimmed) sessions, most-recent-first, and each
run's session is prepended before the list is truncated to 25. -/
theorem persisted_sessions_capped (stored runs : List DebateSession)
    (hstored : stored.length ≤ 25) (hruns : 25 < runs.length) :
    persistAll stored runs = ((runs.map trimSession).reverse).take 25 ∧
    (persistAll stored runs).length = 25 ∧
    ∀ stored2 session, persistCompletedRun stored2 session
      = (trimSession session :: stored2).take 25 := by
  have h := persistAll_formula runs stored hstored
  have hrev : runs.reverse.map trimSession = (runs.map trimSession).reverse := by
    rw [List.map_reverse]
  have hlen : 25 ≤ (runs.reverse.map trimSession).length := by
    simp only [List.length_map, List.length_reverse]
    exact Nat.le_of_lt hruns
  have hmain : persistAll stored runs = ((runs.map trimSession).reverse).take 25 := by
    rw [h, List.take_append_of_le_length hlen, hrev]
  refine ⟨hmain, ?_, fun _ _ => rfl⟩
  rw [hmain]
  simp only [List.length_take, List.length_reverse, List.length_map]
  exact Nat.min_eq_left (Nat.le_of_lt hruns)

/-- Witness for C8: 26 completed runs against an empty store. -/
theorem persisted_sessions_capped_witness :
    (([] : List DebateSession).length ≤ 25 ∧
     25 < ((List.range 26).map sampleSession).length) ∧
    (persistAll [] ((List.range 26).map sampleSession)
        = ((((List.range 26).map sampleSession).map trimSession).reverse).take 25 ∧
     (persistAll [] ((List.range 26).map sampleSession)).length = 25) := by
  have h1 : ([] : List DebateSession).length ≤ 25 := by simp
  have h2 : 25 < ((List.range 26).map sampleSession).length := by simp
  have h := persisted_sessions_capped [] ((List.range 26).map sampleSession) h1 h2
  exact ⟨⟨h1, h2⟩, h.1, h.2.1⟩

theorem selectOutput_reliability (planId : String) (rand : Nat) :
    (selectOutput planId rand).reliability
      = some (if (selectOutput planId rand).passed then 9 / 10 else 75 / 100) := rfl

theorem verificationCallPlanId_sample :
    verificationCallPlanId sampleProposals samplePlans = "plan-a" := by
  norm_num [verificationCallPlanId, sampleProposals, sortByDesc, insertDesc,
    proposalPlanMap, maxStep]

theorem samplePlans_eval :
    samplePlans =
      [{ id := "plan-a", title := "planner proposal",
         summary := "Backfill the role default.",
         steps := ["Check mapping", "Add fallback"],
         risks := ["Requires validation against real-world constraints."] },
       { id := "plan-b", title := "skeptic proposal",
         summary := "Fix the auth payload mapping.",
         steps := ["Normalize payload"],
         risks := ["Requires validation against real-world constraints."] },
       { id := "plan-c", title := "security proposal",
         summary := "Update the mocks.",
         steps := ["Inspect fixtures"],
         risks := ["Requires validation against real-world constraints."] },
       { id := "plan-d", title := "cost proposal",
         summary := "Adjust validation.",
         steps := ["Check rules"],
         risks := ["Requires validation against real-world constraints."] }] := by
  decide

/-- C6 amended: for verification driven by the repository's own MCP tool, the
reliability attached to the resolved verification result is 0.9 exactly when
the attached result passed and 0.75 when it failed — on the success path and
on every fallback/error path alike; the 0.2 reliability carried by the tool's
error result is discarded when the engine falls back to the local mock, so the
attached reliability is never 0.2. -/
theorem verification_reliability_attached (proposals : List Proposal)
    (plans : List DebatePlan) (envApiKey : Option String) (input : VerifyInput)
    (sa fa dn rand : Nat) (result : McpToolResult)
    (hres : verifyPlanTool envApiKey input sa fa dn = Except.ok result) :
    ((mcpVerificationBlock proposals plans (Except.ok result) rand).1.reliability
       = some (if (mcpVerificationBlock proposals plans (Except.ok result) rand).1.passed
           then 9 / 10 else 75 / 100)) ∧
    (∀ message : String,
       (mcpVerificationBlock proposals plans (Except.error message) rand).1.reliability
         = some (if (mcpVerificationBlock proposals plans (Except.error message) rand).1.passed
             then 9 / 10 else 75 / 100)) := by
  refine ⟨?_, fun message => rfl⟩
  rw [verifyPlanTool] at hres
  split at hres
  · exact absurd hres (by simp)
  · split at hres
    · cases Except.ok.inj hres
      rfl
    · cases Except.ok.inj hres
      cases hp : (buildMockLogs input.planId).passed
      · simp [mcpVerificationBlock, hp]
      · simp [mcpVerificationBlock, hp]

/-- Witness for the amended C6 on the tool's mock path. -/
theorem verification_reliability_attached_witness :
    ∃ result, verifyPlanTool none
        { sessionId := "s", planId := "plan-b", mode := "mock" } 0 0 0 = Except.ok result ∧
      ((mcpVerificationBlock sampleProposals samplePlans (Except.ok result) 0).1.reliability
        = some (if (mcpVerificationBlock sampleProposals samplePlans
            (Except.ok result) 0).1.passed then 9 / 10 else 75 / 100)) := by
  refine ⟨_, rfl, ?_⟩
  exact (verification_reliability_attached sampleProposals samplePlans none
    { sessionId := "s", planId := "plan-b", mode := "mock" } 0 0 0 0 _ rfl).1

/-- C6 counterexample: with the repository's tool in "real" mode the MCP call
returns an explicit error result carrying reliability 0.2; the engine takes
the fallback path (the fallback warning is recorded on the result), and the
reliability attached to the verification result is 0.75 — not 0.2 as the
claim requires on fallback/error paths. -/
theorem fallback_reliability_not_point_two :
    ∃ result, verifyPlanTool none
        { sessionId := "s", planId := "plan-a", mode := "real" } 0 0 0 = Except.ok result ∧
      result.status = "error" ∧ result.reliability = 2 / 10 ∧
      ((mcpVerificationBlock sampleProposals samplePlans (Except.ok result) 0).1.warning
         = some "MCP verification failed; fell back to mock.") ∧
      ((mcpVerificationBlock sampleProposals samplePlans (Except.ok result) 0).1.passed
         = false) ∧
      ((mcpVerificationBlock sampleProposals samplePlans (Except.ok result) 0).1.reliability
         = some (75 / 100)) ∧
      ((mcpVerificationBlock sampleProposals samplePlans (Except.ok result) 0).1.reliability
         ≠ some (2 / 10)) := by
  refine ⟨_, rfl, rfl, rfl, ?_, ?_, ?_, ?_⟩ <;>
    · simp only [mcpVerificationBlock, verificationCallPlanId_sample]
      simp only [samplePlans_eval]
      norm_num [selectOutput, mockOutputs]

theorem planSlot_id (proposals : List Proposal) (role letter : String) (index : Nat) :
    (planSlot proposals role letter index).id = "plan-" ++ letter := by
  cases hfind : proposals.find? (fun item => item.agent = role) with
  | none => simp [planSlot, hfind]
  | some p => simp [planSlot, hfind]

theorem plansFromProposals_map_id (proposals : List Proposal) :
    (plansFromProposals proposals).map (fun p => p.id)
      = ["plan-a", "plan-b", "plan-c", "plan-d"] := by
  simp only [plansFromProposals, List.map_cons, List.map_nil, planSlot_id]
  rfl

theorem map_planId_of_field_preserving (l : List ProbabilityEntry)
    (f : ProbabilityEntry → ProbabilityEntry) (hf : ∀ e, (f e).planId = e.planId) :
    (l.map f).map (fun e => e.planId) = l.map (fun e => e.planId) := by
  rw [List.map_map]
  exact List.map_congr_left fun a _ => hf a

theorem applyWeightedUpdate_map_planId (prev : List ProbabilityEntry)
    (u : ProbabilityUpdate) (ts : Nat) (w : ℚ) :
    (applyWeightedUpdate prev u ts w).map (fun e => e.planId)
      = prev.map (fun e => e.planId) := by
  refine map_planId_of_field_preserving prev _ ?_
  intro e
  by_cases h : e.planId = u.planId <;> simp [h]

theorem normalizeEntries_map_planId (l : List ProbabilityEntry) :
    (normalizeEntries l).map (fun e => e.planId) = l.map (fun e => e.planId) := by
  simp only [normalizeEntries]
  split <;> exact map_planId_of_field_preserving l _ fun e => rfl

theorem dampAndNormalize_map_planId (l : List ProbabilityEntry) :
    (dampAndNormalize l).map (fun e => e.planId) = l.map (fun e => e.planId) := by
  simp only [dampAndNormalize]
  refine (map_planId_of_field_preserving _ _ ?_).trans (normalizeEntries_map_planId l)
  intro e
  rfl

theorem length_eq_of_map_planId {l1 l2 : List ProbabilityEntry}
    (h : l1.map (fun e => e.planId) = l2.map (fun e => e.planId)) :
    l1.length = l2.length := by
  have := congrArg List.length h
  simpa using this

theorem ne_nil_of_map_planId {l1 l2 : List ProbabilityEntry}
    (h : l1.map (fun e => e.planId) = l2.map (fun e => e.planId)) (hne : l2 ≠ []) :
    l1 ≠ [] := by
  have hlen := length_eq_of_map_planId h
  intro hcontra
  rw [hcontra] at hlen
  exact hne (List.eq_nil_of_length_eq_zero hlen.symm)

theorem foldl_applyWeightedUpdate_map_planId (updates : List AgentUpdate) :
    ∀ (prev : List ProbabilityEntry) (agent : String) (ts : Nat) (w : ℚ),
      (updates.foldl
        (fun result update =>
          applyWeightedUpdate result
            { planId := update.planId
              probability := update.probability
              updatedBy := agent
              rationale := update.rationale } ts w)
        prev).map (fun e => e.planId)
      = prev.map (fun e => e.planId) := by
  induction updates with
  | nil => intro prev _ _ _; rfl
  | cons u us ih =>
    intro prev agent ts w
    rw [List.foldl_cons, ih, applyWeightedUpdate_map_planId]

theorem reviseFromAgent_planId_sum (prev : List ProbabilityEntry) (agent : String)
    (updates : List AgentUpdate) (off : Nat) (w : ℚ) (hne : prev ≠ []) :
    (reviseFromAgent prev agent updates off w).map (fun e => e.planId)
        = prev.map (fun e => e.planId) ∧
    totalProbability (reviseFromAgent prev agent updates off w) = 1 := by
  simp only [reviseFromAgent]
  have hplan :
      (((updates.foldl
          (fun result update =>
            applyWeightedUpdate result
              { planId := update.planId
                probability := update.probability
                updatedBy := agent
                rationale := update.rationale } off w)
          prev).map fun entry => { entry with timestamp := off }).map (fun e => e.planId))
        = prev.map (fun e => e.planId) := by
    refine (map_planId_of_field_preserving _ _ ?_).trans
      (foldl_applyWeightedUpdate_map_planId updates prev agent off w)
    intro e
    rfl
  constructor
  · rw [dampAndNormalize_map_planId, hplan]
  · exact dampAndNormalize_sum_one _ (ne_nil_of_map_planId hplan hne)

theorem evaluateVerification_planId_sum (prev : List ProbabilityEntry)
    (v : VerificationResult) (pid : String) (w : ℚ) (hne : prev ≠ []) :
    (evaluateVerification prev v pid w).map (fun e => e.planId)
        = prev.map (fun e => e.planId) ∧
    totalProbability (evaluateVerification prev v pid w) = 1 := by
  simp only [evaluateVerification]
  have hplan :
      (((applyWeightedUpdate prev
          { planId := pid
            probability := if v.passed then 82 / 100 else 18 / 100
            updatedBy := "synthesizer"
            rationale :=
              if v.passed then "Verification passed; confidence boosted with damping."
              else "Verification failed; confidence reduced with damping." } 16
          (clampWeight (w * (v.reliability.getD (if v.passed then 9 / 10 else 75 / 100))))).map
        fun entry => { entry with timestamp := 16 }).map (fun e => e.planId))
        = prev.map (fun e => e.planId) := by
    refine (map_planId_of_field_preserving _ _ ?_).trans
      (applyWeightedUpdate_map_planId prev _ 16 _)
    intro e
    rfl
  constructor
  · rw [dampAndNormalize_map_planId, hplan]
  · exact dampAndNormalize_sum_one _ (ne_nil_of_map_planId hplan hne)

theorem roleRevisionLoopAux_spec (proposals : List Proposal) (weights : DebateWeights) :
    ∀ (ris : List (Nat × String)) (current : List ProbabilityEntry), current ≠ [] →
      ((roleRevisionLoopAux proposals weights ris current).1.map (fun e => e.planId)
         = current.map (fun e => e.planId)) ∧
      (∀ snap ∈ (roleRevisionLoopAux proposals weights ris current).2,
         snap.entries.map (fun e => e.planId) = current.map (fun e => e.planId) ∧
         totalProbability snap.entries = 1) ∧
      ((roleRevisionLoopAux proposals weights ris current).2.map
          (fun s => s.timestamp)).Sublist
        (ris.map (fun ri => 2 + ri.1 * 2)) := by
  intro ris
  induction ris with
  | nil =>
    intro current _
    exact ⟨rfl, by simp [roleRevisionLoopAux], by simp [roleRevisionLoopAux]⟩
  | cons ri rest ih =>
    intro current hne
    obtain ⟨index, role⟩ := ri
    cases hfind : proposals.find? (fun item => item.agent = role) with
    | none =>
      simp only [roleRevisionLoopAux, hfind]
      obtain ⟨h1, h2, h3⟩ := ih current hne
      exact ⟨h1, h2, h3.cons _⟩
    | some proposal =>
      simp only [roleRevisionLoopAux, hfind]
      have hrev := reviseFromAgent_planId_sum current role
        [{ planId := (proposalPlanMap role).getD "plan-a"
           probability := proposal.confidence
           rationale := proposal.rationale.head?.getD "Agent proposal applied." }]
        (2 + index * 2) (roleWeight weights role) hne
      have hnextne : reviseFromAgent current role
          [{ planId := (proposalPlanMap role).getD "plan-a"
             probability := proposal.confidence
             rationale := proposal.rationale.head?.getD "Agent proposal applied." }]
          (2 + index * 2) (roleWeight weights role) ≠ [] :=
        ne_nil_of_map_planId hrev.1 hne
      obtain ⟨h1, h2, h3⟩ := ih _ hnextne
      refine ⟨h1.trans hrev.1, ?_, ?_⟩
      · intro snap hsnap
        rcases List.mem_cons.mp hsnap with rfl | hsnap
        · exact ⟨hrev.1, hrev.2⟩
        · obtain ⟨ha, hb⟩ := h2 snap hsnap
          exact ⟨ha.trans hrev.1, hb⟩
      · exact List.Sublist.cons₂ _ h3

theorem initialProbabilities_map_planId (plans : List DebatePlan) :
    (initialProbabilitiesForPlans plans).map (fun e => e.planId)
      = plans.map (fun p => p.id) := by
  simp only [initialProbabilitiesForPlans, List.map_map]
  rfl

theorem debateProbabilities_eq (plans : List DebatePlan) (proposals : List Proposal)
    (weights : DebateWeights) (v : VerificationResult) (hlen : proposals.length ≠ 0) :
    (debateProbabilities plans proposals weights true v
      = (recordSnapshot 1 "Initial priors."
            (dampAndNormalize (initialProbabilitiesForPlans plans))
          :: ((roleRevisionLoop proposals weights
                (dampAndNormalize (initialProbabilitiesForPlans plans))).2
              ++ [(verificationStage
                    (roleRevisionLoop proposals weights
                      (dampAndNormalize (initialProbabilitiesForPlans plans))).1
                    v weights.synthesizer).2]),
         (verificationStage
            (roleRevisionLoop proposals weights
              (dampAndNormalize (initialProbabilitiesForPlans plans))).1
            v weights.synthesizer).1)) ∧
    (debateProbabilities plans proposals weights false v
      = (recordSnapshot 1 "Initial priors."
            (dampAndNormalize (initialProbabilitiesForPlans plans))
          :: ((roleRevisionLoop proposals weights
                (dampAndNormalize (initialProbabilitiesForPlans plans))).2
              ++ [(skippedVerificationStage
                    (roleRevisionLoop proposals weights
                      (dampAndNormalize (initialProbabilitiesForPlans plans))).1
                    weights.synthesizer).2]),
         (skippedVerificationStage
            (roleRevisionLoop proposals weights
              (dampAndNormalize (initialProbabilitiesForPlans plans))).1
            weights.synthesizer).1)) := by
  constructor <;> simp [debateProbabilities, hlen]

/-- C4: every recorded snapshot carries exactly one entry per plan of the
4-plan set (its entries project onto the plan ids plan-a..plan-d in plan
order), its probabilities sum exactly to 1, the snapshot sequence is the
in-order concatenation of the stage outputs (initial snapshot, then the role
revision snapshots, then the final stage snapshot — append-only by
construction), and the recorded timestamps are strictly increasing. -/
theorem debateProbabilities_snapshot_invariants (proposals : List Proposal)
    (weights : DebateWeights) (rv : Bool) (v : VerificationResult)
    (hne : proposals ≠ []) :
    (∀ snap ∈ (debateProbabilities (plansFromProposals proposals) proposals
        weights rv v).1,
      snap.entries.map (fun e => e.planId) = ["plan-a", "plan-b", "plan-c", "plan-d"] ∧
      totalProbability snap.entries = 1) ∧
    List.Chain' (fun a b => a < b)
      ((debateProbabilities (plansFromProposals proposals) proposals weights rv v).1.map
        (fun s => s.timestamp)) ∧
    (∃ roleSnaps finalSnap,
      (debateProbabilities (plansFromProposals proposals) proposals weights rv v).1
        = recordSnapshot 1 "Initial priors."
            (dampAndNormalize (initialProbabilitiesForPlans (plansFromProposals proposals)))
          :: (roleSnaps ++ [finalSnap])) := by
  have hlen : proposals.length ≠ 0 := by
    simpa [List.length_eq_zero] using hne
  have hinitne : initialProbabilitiesForPlans (plansFromProposals proposals) ≠ [] := by
    simp [initialProbabilitiesForPlans, plansFromProposals]
  have hinit_planId :
      (dampAndNormalize (initialProbabilitiesForPlans (plansFromProposals proposals))).map
          (fun e => e.planId)
        = ["plan-a", "plan-b", "plan-c", "plan-d"] := by
    rw [dampAndNormalize_map_planId, initialProbabilities_map_planId,
      plansFromProposals_map_id]
  have hdampne :
      dampAndNormalize (initialProbabilitiesForPlans (plansFromProposals proposals)) ≠ [] := by
    intro h
    rw [h] at hinit_planId
    simp at hinit_planId
  have hinit_sum :
      totalProbability
        (dampAndNormalize (initialProbabilitiesForPlans (plansFromProposals proposals))) = 1 :=
    dampAndNormalize_sum_one _ hinitne
  obtain ⟨hL1, hL2, hL3⟩ := roleRevisionLoopAux_spec proposals weights
    (proposalOrder.enum)
    (dampAndNormalize (initialProbabilitiesForPlans (plansFromProposals proposals))) hdampne
  have hoffsets : (proposalOrder.enum).map (fun ri => 2 + ri.1 * 2) = [2, 4, 6, 8] := by
    decide
  rw [hoffsets] at hL3
  have hloopne :
      (roleRevisionLoop proposals weights
        (dampAndNormalize (initialProbabilitiesForPlans (plansFromProposals proposals)))).1
        ≠ [] :=
    ne_nil_of_map_planId hL1 hdampne
  have hchain : ∀ loopTs : List Nat, loopTs.Sublist [2, 4, 6, 8] →
      List.Chain' (fun a b => a < b) (1 :: (loopTs ++ [16])) := by
    intro loopTs hsub
    haveI : IsTrans Nat (fun a b : Nat => a < b) := ⟨fun _ _ _ h1 h2 => Nat.lt_trans h1 h2⟩
    rw [List.chain'_iff_pairwise, List.pairwise_cons]
    constructor
    · intro x hx
      rcases List.mem_append.mp hx with hx | hx
      · have hmem : x ∈ [2, 4, 6, 8] := hsub.subset hx
        fin_cases hmem <;> omega
      · simp only [List.mem_singleton] at hx
        omega
    · rw [List.pairwise_append]
      refine ⟨List.Pairwise.sublist hsub (by decide), by simp, ?_⟩
      intro x hx y hy
      have hmem : x ∈ [2, 4, 6, 8] := hsub.subset hx
      simp only [List.mem_singleton] at hy
      subst hy
      fin_cases hmem <;> omega
  cases rv with
  | true =>
    have heq := (debateProbabilities_eq (plansFromProposals proposals) proposals weights v
      hlen).1
    obtain ⟨hV1, hV2⟩ := evaluateVerification_planId_sum
      (roleRevisionLoop proposals weights
        (dampAndNormalize (initialProbabilitiesForPlans (plansFromProposals proposals)))).1
      v (pickFinalPlanId
        (roleRevisionLoop proposals weights
          (dampAndNormalize (initialProbabilitiesForPlans (plansFromProposals proposals)))).1)
      weights.synthesizer hloopne
    rw [heq]
    refine ⟨?_, ?_, ?_⟩
    · intro snap hsnap
      rcases List.mem_cons.mp hsnap with rfl | hsnap
      · exact ⟨hinit_planId, hinit_sum⟩
      rcases List.mem_append.mp hsnap with hsnap | hsnap
      · obtain ⟨ha, hb⟩ := hL2 snap hsnap
        exact ⟨ha.trans hinit_planId, hb⟩
      · simp only [List.mem_singleton] at hsnap
        subst hsnap
        exact ⟨(hV1.trans hL1).trans hinit_planId, hV2⟩
    · have hts : (recordSnapshot 1 "Initial priors."
            (dampAndNormalize (initialProbabilitiesForPlans (plansFromProposals proposals)))
          :: ((roleRevisionLoop proposals weights
                (dampAndNormalize (initialProbabilitiesForPlans (plansFromProposals proposals)))).2
              ++ [(verificationStage
                    (roleRevisionLoop proposals weights
                      (dampAndNormalize
                        (initialProbabilitiesForPlans (plansFromProposals proposals)))).1
                    v weights.synthesizer).2])).map (fun s => s.timestamp)
          = 1 :: (((roleRevisionLoop proposals weights
                (dampAndNormalize (initialProbabilitiesForPlans
                  (plansFromProposals proposals)))).2.map (fun s => s.timestamp))
              ++ [16]) := by
        simp [recordSnapshot, verificationStage]
      rw [hts]
      exact hchain _ hL3
    · exact ⟨_, _, rfl⟩
  | false =>
    have heq := (debateProbabilities_eq (plansFromProposals proposals) proposals weights v
      hlen).2
    obtain ⟨hV1, hV2⟩ := reviseFromAgent_planId_sum
      (roleRevisionLoop proposals weights
        (dampAndNormalize (initialProbabilitiesForPlans (plansFromProposals proposals)))).1
      "synthesizer"
      [{ planId := pickFinalPlanId
            (roleRevisionLoop proposals weights
              (dampAndNormalize (initialProbabilitiesForPlans
                (plansFromProposals proposals)))).1
         probability := min (7 / 10)
           ((((roleRevisionLoop proposals weights
                (dampAndNormalize (initialProbabilitiesForPlans
                  (plansFromProposals proposals)))).1.find?
              (fun entry => entry.planId = pickFinalPlanId
                (roleRevisionLoop proposals weights
                  (dampAndNormalize (initialProbabilitiesForPlans
                    (plansFromProposals proposals)))).1)).map
              (fun entry => entry.probability)).getD (5 / 10) + 5 / 100)
         rationale := "Synthesizer tempered confidence without verification." }]
      16 weights.synthesizer hloopne
    rw [heq]
    refine ⟨?_, ?_, ?_⟩
    · intro snap hsnap
      rcases List.mem_cons.mp hsnap with rfl | hsnap
      · exact ⟨hinit_planId, hinit_sum⟩
      rcases List.mem_append.mp hsnap with hsnap | hsnap
      · obtain ⟨ha, hb⟩ := hL2 snap hsnap
        exact ⟨ha.trans hinit_planId, hb⟩
      · simp only [List.mem_singleton] at hsnap
        subst hsnap
        exact ⟨(hV1.trans hL1).trans hinit_planId, hV2⟩
    · have hts : (recordSnapshot 1 "Initial priors."
            (dampAndNormalize (initialProbabilitiesForPlans (plansFromProposals proposals)))
          :: ((roleRevisionLoop proposals weights
                (dampAndNormalize (initialProbabilitiesForPlans (plansFromProposals proposals)))).2
              ++ [(skippedVerificationStage
                    (roleRevisionLoop proposals weights
                      (dampAndNormalize
                        (initialProbabilitiesForPlans (plansFromProposals proposals)))).1
                    weights.synthesizer).2])).map (fun s => s.timestamp)
          = 1 :: (((roleRevisionLoop proposals weights
                (dampAndNormalize (initialProbabilitiesForPlans
                  (plansFromProposals proposals)))).2.map (fun s => s.timestamp))
              ++ [16]) := by
        simp [recordSnapshot, skippedVerificationStage]
      rw [hts]
      exact hchain _ hL3
    · exact ⟨_, _, rfl⟩

/-- Witness for C4 at a concrete run with verification. -/
theorem debateProbabilities_snapshot_invariants_witness :
    sampleProposals ≠ [] ∧
    ∀ snap ∈ (debateProbabilities (plansFromProposals sampleProposals) sampleProposals
        sampleWeights true sampleVerification).1,
      snap.entries.map (fun e => e.planId) = ["plan-a", "plan-b", "plan-c", "plan-d"] ∧
      totalProbability snap.entries = 1 := by
  have h : sampleProposals ≠ [] := by simp [sampleProposals]
  exact ⟨h, (debateProbabilities_snapshot_invariants sampleProposals sampleWeights true
    sampleVerification h).1⟩

theorem foldl_maxStep_map {α β : Type} (g : α → β) (f : β → ℚ) :
    ∀ (l : List α) (acc : Option α),
      l.foldl (fun acc x => maxStep f acc (g x)) (Option.map g acc)
        = Option.map g (l.foldl (maxStep fun a => f (g a)) acc) := by
  intro l
  induction l with
  | nil => intro acc; rfl
  | cons x xs ih =>
    intro acc
    rw [List.foldl_cons, List.foldl_cons]
    have hstep : maxStep f (Option.map g acc) (g x)
        = Option.map g (maxStep (fun a => f (g a)) acc x) := by
      cases acc with
      | none => rfl
      | some b => by_cases h : f (g b) < f (g x) <;> simp [maxStep, h]
    rw [hstep, ih]

theorem firstMaxBy_map {α β : Type} (g : α → β) (f : β → ℚ) (l : List α) :
    firstMaxBy f (l.map g) = Option.map g (firstMaxBy (fun a => f (g a)) l) := by
  rw [firstMaxBy, firstMaxBy, List.foldl_map]
  exact foldl_maxStep_map g f l none

theorem initial_sample_uniform :
    dampAndNormalize (initialProbabilitiesForPlans samplePlans)
      = initialProbabilitiesForPlans samplePlans := by
  have hlen : (initialProbabilitiesForPlans samplePlans).length = 4 := by
    simp [initialProbabilitiesForPlans, samplePlans_eval]
  have hne : initialProbabilitiesForPlans samplePlans ≠ [] := by
    intro h
    rw [h] at hlen
    simp at hlen
  refine dampAndNormalize_of_uniform _ hne ?_
  intro e he
  simp only [initialProbabilitiesForPlans] at he
  obtain ⟨p, _, rfl⟩ := List.mem_map.mp he
  rw [hlen]
  norm_num

theorem step_planner_eval :
    reviseFromAgent (initialProbabilitiesForPlans samplePlans) "planner"
        [⟨"plan-a", 9 / 10, "Check mapping"⟩] 2 0
      = [⟨"plan-a", 1 / 4, "planner", "Check mapping", 2⟩,
         ⟨"plan-b", 1 / 4, "planner", "Initial prior assigned by Planner.", 2⟩,
         ⟨"plan-c", 1 / 4, "planner", "Initial prior assigned by Planner.", 2⟩,
         ⟨"plan-d", 1 / 4, "planner", "Initial prior assigned by Planner.", 2⟩] := by
  simp [reviseFromAgent, applyWeightedUpdate, initialProbabilitiesForPlans,
    samplePlans_eval]
  norm_num [clampUnit, dampAndNormalize, normalizeEntries, totalProbability,
    DAMPING_FACTOR, min_def, max_def]

theorem step_skeptic_eval :
    reviseFromAgent
        [⟨"plan-a", 1 / 4, "planner", "Check mapping", 2⟩,
         ⟨"plan-b", 1 / 4, "planner", "Initial prior assigned by Planner.", 2⟩,
         ⟨"plan-c", 1 / 4, "planner", "Initial prior assigned by Planner.", 2⟩,
         ⟨"plan-d", 1 / 4, "planner", "Initial prior assigned by Planner.", 2⟩]
        "skeptic" [⟨"plan-b", 8 / 10, "Normalize payload"⟩] 4 1
      = [⟨"plan-a", 261 / 1550, "planner", "Check mapping", 4⟩,
         ⟨"plan-b", 767 / 1550, "skeptic", "Normalize payload", 4⟩,
         ⟨"plan-c", 261 / 1550, "planner", "Initial prior assigned by Planner.", 4⟩,
         ⟨"plan-d", 261 / 1550, "planner", "Initial prior assigned by Planner.", 4⟩] := by
  simp [reviseFromAgent, applyWeightedUpdate]
  norm_num [clampUnit, dampAndNormalize, normalizeEntries, totalProbability,
    DAMPING_FACTOR, min_def, max_def]

theorem step_security_eval :
    reviseFromAgent
        [⟨"plan-a", 261 / 1550, "planner", "Check mapping", 4⟩,
         ⟨"plan-b", 767 / 1550, "skeptic", "Normalize payload", 4⟩,
         ⟨"plan-c", 261 / 1550, "planner", "Initial prior assigned by Planner.", 4⟩,
         ⟨"plan-d", 261 / 1550, "planner", "Initial prior assigned by Planner.", 4⟩]
        "security" [⟨"plan-c", 1 / 10, "Inspect fixtures"⟩] 6 0
      = [⟨"plan-a", 3389 / 19375, "planner", "Check mapping", 6⟩,
         ⟨"plan-b", 9208 / 19375, "skeptic", "Normalize payload", 6⟩,
         ⟨"plan-c", 3389 / 19375, "security", "Inspect fixtures", 6⟩,
         ⟨"plan-d", 3389 / 19375, "planner", "Initial prior assigned by Planner.", 6⟩] := by
  simp [reviseFromAgent, applyWeightedUpdate]
  norm_num [clampUnit, dampAndNormalize, normalizeEntries, totalProbability,
    DAMPING_FACTOR, min_def, max_def]

theorem step_cost_eval :
    reviseFromAgent
        [⟨"plan-a", 3389 / 19375, "planner", "Check mapping", 6⟩,
         ⟨"plan-b", 9208 / 19375, "skeptic", "Normalize payload", 6⟩,
         ⟨"plan-c", 3389 / 19375, "security", "Inspect fixtures", 6⟩,
         ⟨"plan-d", 3389 / 19375, "planner", "Initial prior assigned by Planner.", 6⟩]
        "cost" [⟨"plan-d", 1 / 10, "Check rules"⟩] 8 0
      = [⟨"plan-a", 175269 / 968750, "planner", "Check mapping", 8⟩,
         ⟨"plan-b", 442943 / 968750, "skeptic", "Normalize payload", 8⟩,
         ⟨"plan-c", 175269 / 968750, "security", "Inspect fixtures", 8⟩,
         ⟨"plan-d", 175269 / 968750, "cost", "Check rules", 8⟩] := by
  simp [reviseFromAgent, applyWeightedUpdate]
  norm_num [clampUnit, dampAndNormalize, normalizeEntries, totalProbability,
    DAMPING_FACTOR, min_def, max_def]

theorem loop_sample_eval :
    (roleRevisionLoop sampleProposals sampleWeights
        (dampAndNormalize (initialProbabilitiesForPlans samplePlans))).1
      = [⟨"plan-a", 175269 / 968750, "planner", "Check mapping", 8⟩,
         ⟨"plan-b", 442943 / 968750, "skeptic", "Normalize payload", 8⟩,
         ⟨"plan-c", 175269 / 968750, "security", "Inspect fixtures", 8⟩,
         ⟨"plan-d", 175269 / 968750, "cost", "Check rules", 8⟩] := by
  rw [initial_sample_uniform]
  have hfp : sampleProposals.find? (fun item => item.agent = "planner")
      = some { agent := "planner", proposal := "Backfill the role default.", summary := "s1",
               risk := "k1", riskSeverity := 2, rationale := ["Check mapping", "Add fallback"],
               confidence := 9 / 10 } := rfl
  have hfs : sampleProposals.find? (fun item => item.agent = "skeptic")
      = some { agent := "skeptic", proposal := "Fix the auth payload mapping.", summary := "s2",
               risk := "k2", riskSeverity := 3, rationale := ["Normalize payload"],
               confidence := 8 / 10 } := rfl
  have hfsec : sampleProposals.find? (fun item => item.agent = "security")
      = some { agent := "security", proposal := "Update the mocks.", summary := "s3",
               risk := "k3", riskSeverity := 1, rationale := ["Inspect fixtures"],
               confidence := 1 / 10 } := rfl
  have hfc : sampleProposals.find? (fun item => item.agent = "cost")
      = some { agent := "cost", proposal := "Adjust validation.", summary := "s4",
               risk := "k4", riskSeverity := 1, rationale := ["Check rules"],
               confidence := 1 / 10 } := rfl
  have hw1 : roleWeight sampleWeights "planner" = 0 := rfl
  have hw2 : roleWeight sampleWeights "skeptic" = 1 := rfl
  have hw3 : roleWeight sampleWeights "security" = 0 := rfl
  have hw4 : roleWeight sampleWeights "cost" = 0 := rfl
  have hp1 : (proposalPlanMap "planner").getD "plan-a" = "plan-a" := rfl
  have hp2 : (proposalPlanMap "skeptic").getD "plan-a" = "plan-b" := rfl
  have hp3 : (proposalPlanMap "security").getD "plan-a" = "plan-c" := rfl
  have hp4 : (proposalPlanMap "cost").getD "plan-a" = "plan-d" := rfl
  simp only [roleRevisionLoop, proposalOrder, List.enum, List.enumFrom, roleRevisionLoopAux,
    hfp, hfs, hfsec, hfc, hw1, hw2, hw3, hw4, hp1, hp2, hp3, hp4,
    List.head?_cons, Option.getD_some, Nat.reduceAdd, Nat.reduceMul]
  rw [step_planner_eval, step_skeptic_eval, step_security_eval, step_cost_eval]

theorem sample_belief_leader :
    pickFinalPlanId (roleRevisionLoop sampleProposals sampleWeights
      (dampAndNormalize (initialProbabilitiesForPlans samplePlans))).1 = "plan-b" := by
  rw [loop_sample_eval]
  norm_num [pickFinalPlanId, sortByDesc, insertDesc]

/-- C9: the plan id sent to the external verification capability is the plan
slot of the proposal with maximal confidence (ties resolved by collection
order: the top proposal splits the list into strictly-less-confident
predecessors and no-more-confident successors), not the current belief
leader; and on a concrete run the two targets differ — the MCP call targets
plan-a (the planner is most confident) while the belief update targets plan-b
(the skeptic moved the most probability). -/
theorem verificationCall_targets_confidence_leader (proposals : List Proposal)
    (plans : List DebatePlan) (hne : proposals ≠ []) :
    (∃ top, firstMaxBy (fun p => p.confidence) proposals = some top ∧
      (∃ l1 l2, proposals = l1 ++ top :: l2 ∧
        (∀ x ∈ l1, x.confidence < top.confidence) ∧
        (∀ x ∈ l2, x.confidence ≤ top.confidence)) ∧
      verificationCallPlanId proposals plans
        = (proposalPlanMap top.agent).getD "plan-a") ∧
    (verificationCallPlanId sampleProposals samplePlans = "plan-a" ∧
     pickFinalPlanId (roleRevisionLoop sampleProposals sampleWeights
        (dampAndNormalize (initialProbabilitiesForPlans samplePlans))).1 = "plan-b" ∧
     ("plan-a" : String) ≠ "plan-b") := by
  obtain ⟨top, htop⟩ := firstMaxBy_isSome (fun p => p.confidence) proposals hne
  have hchar := firstMaxBy_spec (fun p => p.confidence) proposals top htop
  have hhead : (sortByDesc (fun r : String × ℚ => r.2)
      (proposals.map fun proposal =>
        ((proposalPlanMap proposal.agent).getD "plan-a", proposal.confidence))).head?
      = some ((proposalPlanMap top.agent).getD "plan-a", top.confidence) := by
    rw [head?_sortByDesc, firstMaxBy_map]
    rw [show (fun a : Proposal =>
        (fun r : String × ℚ => r.2) ((proposalPlanMap a.agent).getD "plan-a", a.confidence))
        = fun p : Proposal => p.confidence from rfl]
    rw [htop]
    rfl
  have hcall : verificationCallPlanId proposals plans
      = (proposalPlanMap top.agent).getD "plan-a" := by
    simp only [verificationCallPlanId, hhead]
  exact ⟨⟨top, htop, hchar, hcall⟩,
    verificationCallPlanId_sample, sample_belief_leader, by decide⟩

/-- Witness for C9: the general part instantiated at the concrete proposal
set, where the confidence leader is the planner and the call targets
plan-a. -/
theorem verificationCall_targets_confidence_leader_witness :
    sampleProposals ≠ [] ∧
    (∃ top, firstMaxBy (fun p => p.confidence) sampleProposals = some top ∧
      (∃ l1 l2, sampleProposals = l1 ++ top :: l2 ∧
        (∀ x ∈ l1, x.confidence < top.confidence) ∧
        (∀ x ∈ l2, x.confidence ≤ top.confidence)) ∧
      verificationCallPlanId sampleProposals samplePlans
        = (proposalPlanMap top.agent).getD "plan-a") := by
  have h : sampleProposals ≠ [] := by simp [sampleProposals]
  exact ⟨h, (verificationCall_targets_confidence_leader sampleProposals samplePlans h).1⟩

end Conclave
